import Mathlib

/-!
Verification development for the InterviewPOS transaction / refund engine
(`src/server/index.js`).  The persistent tables (`item`, `item_barcode`,
`pos_transaction`, `transaction_line`, `payment`, `refund`) are embedded as
lists inside a `Store`, currency values are exact rationals (`ℚ`), and each
HTTP handler of the server becomes a pure function from a store and its
request parameters to `Except ApiError (result × Store)`.  JavaScript's
`Number.prototype.toFixed(2)` (round to two decimals, ties toward +infinity)
is modelled by `round2`.  Row ids are drawn from a single `nextId` counter,
standing for the database's generated keys.
-/

namespace POS

/-- Status values stored in `pos_transaction.status`.  The constructor
`opened` models the string `'open'` (a Lean keyword). -/
inductive TxStatus where
  | opened
  | finalized
  | refunded
deriving DecidableEq

/-- Error taxonomy of the spec (section 7), covering the 400/404 responses of
the handlers.  `internal` stands for the 500 responses (datastore failures,
e.g. the foreign-key failure when a line is inserted for an absent
transaction). -/
inductive ApiError where
  | invalidInput
  | notFound
  | invalidState
  | insufficientPayment
  | internal
deriving DecidableEq

/-- Row of the `item` table (the fields the engine reads and writes). -/
structure Item where
  id : Nat
  price : ℚ
  tax_rate : ℚ
  quantity : Int
  is_active : Bool
deriving DecidableEq

/-- Row of the `pos_transaction` table. -/
structure PosTransaction where
  id : Nat
  status : TxStatus
  subtotal : ℚ
  tax : ℚ
  total : ℚ
deriving DecidableEq

/-- Row of the `transaction_line` table. -/
structure TransactionLine where
  id : Nat
  transaction_id : Nat
  item_id : Nat
  quantity : Int
  unit_price : ℚ
  tax_rate : ℚ
  line_total : ℚ
  refunded_by : Option Nat
deriving DecidableEq

/-- Row of the `payment` table. -/
structure Payment where
  id : Nat
  transaction_id : Nat
  method : String
  amount : ℚ
deriving DecidableEq

/-- Row of the `refund` table (unique constraint on `original_tx`). -/
structure RefundRecord where
  id : Nat
  original_tx : Nat
  refund_tx : Nat
deriving DecidableEq

/-- The whole datastore.  `barcodes` is the `item_barcode` table as
(barcode, item_id) pairs; `nextId` is the generated-key counter. -/
structure Store where
  items : List Item
  barcodes : List (String × Nat)
  transactions : List PosTransaction
  lines : List TransactionLine
  payments : List Payment
  refunds : List RefundRecord
  nextId : Nat
deriving DecidableEq

/-- Round a rational to two decimal places, ties toward plus infinity,
modelling `x.toFixed(2)` read back as a number. -/
def round2 (q : ℚ) : ℚ := (round (q * 100) : ℤ) / 100

/-- Lookup in `pos_transaction` by id (`.eq('id', ...).single()`). -/
def findTx (s : Store) (i : Nat) : Option PosTransaction :=
  s.transactions.find? (fun t => t.id = i)

/-- Lookup in `item` by id. -/
def getItem (s : Store) (i : Nat) : Option Item :=
  s.items.find? (fun it => it.id = i)

/-- All lines of one transaction (`.eq('transaction_id', ...)`). -/
def txLines (s : Store) (txId : Nat) : List TransactionLine :=
  s.lines.filter (fun l => l.transaction_id = txId)

/-- Recomputed monetary subtotal of one line, `unit_price * quantity`. -/
def lineSub (l : TransactionLine) : ℚ := l.unit_price * (l.quantity : ℚ)

/-- Recomputed tax of one line, `(unit_price * quantity) * tax_rate`. -/
def lineTax (l : TransactionLine) : ℚ := lineSub l * l.tax_rate

/-- Recomputed total of one line (subtotal plus tax). -/
def lineTot (l : TransactionLine) : ℚ := lineSub l + lineTax l

/-- Sum of recomputed line subtotals (the `newSubtotal` accumulation). -/
def sumSub (ls : List TransactionLine) : ℚ := (ls.map lineSub).sum

/-- Sum of recomputed line taxes (the `newTax` accumulation). -/
def sumTax (ls : List TransactionLine) : ℚ := (ls.map lineTax).sum

/-- Sum of recomputed line totals (the `newTotal` accumulation). -/
def sumTot (ls : List TransactionLine) : ℚ := (ls.map lineTot).sum

/-- Sum of the stored `line_total` column (the refund handler's
`refundTotal` accumulation). -/
def sumStored (ls : List TransactionLine) : ℚ := (ls.map (fun l => l.line_total)).sum

/-- POST `/api/transactions`: insert an open transaction with zeroed totals. -/
def openTransaction (s : Store) : PosTransaction × Store :=
  let t : PosTransaction :=
    { id := s.nextId, status := .opened, subtotal := 0, tax := 0, total := 0 }
  (t, { s with transactions := s.transactions ++ [t], nextId := s.nextId + 1 })

/-- Validation prefix of POST `/api/transactions/:id/lines`: the barcode and
quantity checks, the barcode lookup with the `is_active` join check, the full
item fetch, and the foreign-key requirement that the transaction row exists
(its violation is a 500, `internal`).  Returns the item to snapshot.  Note
the handler never checks the transaction's status.  The handler's
`barcode.trim()` whitespace trimming is omitted: barcodes are modelled as
exact tokens, which is observation-equivalent for whitespace-free inputs. -/
def addLineChecks (s : Store) (transactionId : Nat) (barcode : String)
    (quantity : Int) : Except ApiError Item :=
  if barcode = "" then .error .invalidInput
  else if quantity ≤ 0 then .error .invalidInput
  else
    match s.barcodes.find? (fun b => b.1 = barcode) with
    | none => .error .notFound
    | some b =>
      match getItem s b.2 with
      | none => .error .notFound
      | some item =>
        if item.is_active = false then .error .notFound
        else
          match findTx s transactionId with
          | none => .error .internal
          | some _ => .ok item

/-- Result payload of a successful AddLine: the created line and the
transaction row carrying the recomputed totals. -/
structure AddLineOk where
  line : TransactionLine
  transaction : PosTransaction
deriving DecidableEq

/-- Mutation suffix of POST `/api/transactions/:id/lines`: insert the line
with the price/tax snapshot and unrounded `line_total`, then recompute the
transaction's subtotal, tax and total from scratch over all its lines and
persist them (unrounded). -/
def addLineApply (s : Store) (transactionId : Nat) (quantity : Int)
    (item : Item) : Except ApiError (AddLineOk × Store) :=
  let unitPrice := item.price
  let taxRate := item.tax_rate
  let line : TransactionLine :=
    { id := s.nextId, transaction_id := transactionId, item_id := item.id,
      quantity := quantity, unit_price := unitPrice, tax_rate := taxRate,
      line_total := unitPrice * (quantity : ℚ) + unitPrice * (quantity : ℚ) * taxRate,
      refunded_by := none }
  let s1 := { s with lines := s.lines ++ [line], nextId := s.nextId + 1 }
  let allLines := txLines s1 transactionId
  let s2 := { s1 with transactions := s1.transactions.map (fun t =>
      if t.id = transactionId then
        { t with subtotal := sumSub allLines, tax := sumTax allLines,
                 total := sumTot allLines }
      else t) }
  match findTx s2 transactionId with
  | none => .error .internal
  | some updatedTx => .ok ({ line := line, transaction := updatedTx }, s2)

/-- POST `/api/transactions/:id/lines`. -/
def addLine (s : Store) (transactionId : Nat) (barcode : String)
    (quantity : Int) : Except ApiError (AddLineOk × Store) :=
  match addLineChecks s transactionId barcode quantity with
  | .error e => .error e
  | .ok item => addLineApply s transactionId quantity item

/-- Validation prefix of POST `/api/transactions/:id/finalize`: cash amount,
existence, status and sufficiency checks, returning the transaction row. -/
def finalizeChecks (s : Store) (transactionId : Nat) (cashAmount : ℚ) :
    Except ApiError PosTransaction :=
  if cashAmount ≤ 0 then .error .invalidInput
  else
    match findTx s transactionId with
    | none => .error .notFound
    | some transaction =>
      if transaction.status ≠ .opened then .error .invalidState
      else if cashAmount < transaction.total then .error .insufficientPayment
      else .ok transaction

/-- Result payload of a successful Finalize: the updated transaction, the
payment row, the computed change and the change as serialized by
`change.toFixed(2)`. -/
structure FinalizeOk where
  transaction : PosTransaction
  payment : Payment
  change : ℚ
  changeRounded : ℚ
deriving DecidableEq

/-- One step of the finalize inventory loop: set the item's quantity to
`max(0, quantity - sold)`; an absent item id is skipped (the handler logs
and continues). -/
def decrementItem (s : Store) (itemId : Nat) (sold : Int) : Store :=
  { s with items := s.items.map (fun it =>
      if it.id = itemId then { it with quantity := max 0 (it.quantity - sold) }
      else it) }

/-- The finalize inventory loop over a list of lines. -/
def decFold (s : Store) (ls : List TransactionLine) : Store :=
  ls.foldl (fun st l => decrementItem st l.item_id l.quantity) s

/-- Transaction-status update `UPDATE pos_transaction SET status = st WHERE
id = txId`. -/
def setStatus (s : Store) (txId : Nat) (st : TxStatus) : Store :=
  { s with transactions := s.transactions.map (fun t : PosTransaction =>
      if t.id = txId then { t with status := st } else t) }

/-- Payment insert. -/
def insertPayment (s : Store) (txId : Nat) (amt : ℚ) : Payment × Store :=
  let p : Payment :=
    { id := s.nextId, transaction_id := txId, method := "cash", amount := amt }
  (p, { s with payments := s.payments ++ [p], nextId := s.nextId + 1 })

/-- Mutation suffix of POST `/api/transactions/:id/finalize`: set the status
to `finalized`, insert the cash payment, and run the per-line inventory
decrement loop. -/
def finalizeApply (s : Store) (transactionId : Nat) (cashAmount : ℚ)
    (transaction : PosTransaction) : FinalizeOk × Store :=
  let updatedTx : PosTransaction := { transaction with status := TxStatus.finalized }
  let s1 := setStatus s transactionId .finalized
  let ps2 := insertPayment s1 transactionId cashAmount
  let s3 := decFold ps2.2 (txLines ps2.2 transactionId)
  let change := cashAmount - transaction.total
  ({ transaction := updatedTx, payment := ps2.1, change := change,
     changeRounded := round2 change }, s3)

/-- POST `/api/transactions/:id/finalize`. -/
def finalize (s : Store) (transactionId : Nat) (cashAmount : ℚ) :
    Except ApiError (FinalizeOk × Store) :=
  match finalizeChecks s transactionId cashAmount with
  | .error e => .error e
  | .ok transaction => .ok (finalizeApply s transactionId cashAmount transaction)

/-- Validation prefix of POST `/api/transactions/:id/refund`: non-empty
selection, existence, `finalized` status, all selected ids present among the
transaction's lines (`selectedLines.length == lineIds.length`), and no
selected line already refunded.  Returns the original transaction and the
selected lines. -/
def refundChecks (s : Store) (transactionId : Nat) (lineIds : List Nat) :
    Except ApiError (PosTransaction × List TransactionLine) :=
  if lineIds = [] then .error .invalidInput
  else
    match findTx s transactionId with
    | none => .error .notFound
    | some originalTransaction =>
      if originalTransaction.status ≠ .finalized then .error .invalidState
      else
        let selectedLines := (txLines s transactionId).filter
            (fun l => l.id ∈ lineIds)
        if selectedLines.length ≠ lineIds.length then .error .invalidInput
        else if selectedLines.any (fun l => l.refunded_by.isSome) then
          .error .invalidInput
        else .ok (originalTransaction, selectedLines)

/-- Result payload of a successful Refund.  `remainingUnrefunded` models the
`isPartial` response flag. -/
structure RefundOk where
  refundAmount : ℚ
  originalTransaction : PosTransaction
  refundTransaction : PosTransaction
  remainingUnrefunded : Bool
deriving DecidableEq

/-- One step of the refund inventory loop: add the refunded quantity back
(unbounded); an absent item id is skipped. -/
def incrementItem (s : Store) (itemId : Nat) (qty : Int) : Store :=
  { s with items := s.items.map (fun it =>
      if it.id = itemId then { it with quantity := it.quantity + qty }
      else it) }

/-- The refund inventory loop over the selected lines. -/
def incFold (s : Store) (ls : List TransactionLine) : Store :=
  ls.foldl (fun st l => incrementItem st l.item_id l.quantity) s

/-- Get-or-create of the refund record: try the insert and, when the unique
constraint on `original_tx` fires (Postgres error 23505), fetch and reuse
the existing row.  Returns the refund id to mark into the lines. -/
def getOrCreateRefund (s : Store) (transactionId : Nat) (rtxId : Nat) :
    Nat × Store :=
  match s.refunds.find? (fun r => r.original_tx = transactionId) with
  | some existing => (existing.id, s)
  | none =>
    let r : RefundRecord :=
      { id := s.nextId, original_tx := transactionId, refund_tx := rtxId }
    (r.id, { s with refunds := s.refunds ++ [r], nextId := s.nextId + 1 })

/-- The per-line update `UPDATE transaction_line SET refunded_by = refundId
WHERE id = lineId`, as a function on one line row. -/
def markOf (lineIds : List Nat) (refundId : Nat) (l : TransactionLine) :
    TransactionLine :=
  if l.id ∈ lineIds then { l with refunded_by := some refundId } else l

/-- The per-lineId `refunded_by` update loop.  Every iteration writes the
same `refundId` to a distinct line id, so the loop is order-independent and
is rendered as one map over the lines. -/
def markLines (s : Store) (lineIds : List Nat) (refundId : Nat) : Store :=
  { s with lines := s.lines.map (markOf lineIds refundId) }

/-- The reversal transaction inserted by the refund handler: status
`finalized` directly, each monetary field rounded by `toFixed(2)`. -/
def refundTxOf (s : Store) (selectedLines : List TransactionLine) : PosTransaction :=
  { id := s.nextId, status := .finalized,
    subtotal := round2 (sumSub selectedLines),
    tax := round2 (sumTax selectedLines),
    total := round2 (sumStored selectedLines) }

/-- Mutation suffix of POST `/api/transactions/:id/refund`: create the
reversal transaction with per-field `toFixed(2)` totals, get-or-create the
refund record, mark the selected lines, run the inventory increment loop,
flip the original to `refunded` when every line is now refunded, and insert
the negative payment. -/
def refundApply (s : Store) (transactionId : Nat) (lineIds : List Nat)
    (originalTransaction : PosTransaction)
    (selectedLines : List TransactionLine) : RefundOk × Store :=
  let refundTotal := sumStored selectedLines
  let refundTx := refundTxOf s selectedLines
  let s1 := { s with transactions := s.transactions ++ [refundTx],
                     nextId := s.nextId + 1 }
  let idAndStore := getOrCreateRefund s1 transactionId refundTx.id
  let s3 := markLines idAndStore.2 lineIds idAndStore.1
  let s4 := incFold s3 selectedLines
  let remainingLines := txLines s4 transactionId
  let allRefunded := remainingLines.all (fun l => l.refunded_by.isSome)
  let s5 := if allRefunded then setStatus s4 transactionId .refunded else s4
  let ps6 := insertPayment s5 refundTx.id (-(round2 refundTotal))
  ({ refundAmount := round2 refundTotal,
     originalTransaction := originalTransaction,
     refundTransaction := refundTx,
     remainingUnrefunded := remainingLines.any (fun l => l.refunded_by = none) }, ps6.2)

/-- POST `/api/transactions/:id/refund`. -/
def refund (s : Store) (transactionId : Nat) (lineIds : List Nat) :
    Except ApiError (RefundOk × Store) :=
  match refundChecks s transactionId lineIds with
  | .error e => .error e
  | .ok p => .ok (refundApply s transactionId lineIds p.1 p.2)

/-- Store well-formedness: generated ids are below the counter and each
table's key column is duplicate-free (the `refund` table additionally keeps
`original_tx` unique, its declared unique constraint). -/
def Wf (s : Store) : Prop :=
  (s.lines.map TransactionLine.id).Nodup ∧
  (∀ l ∈ s.lines, l.id < s.nextId) ∧
  (∀ l ∈ s.lines, l.transaction_id < s.nextId) ∧
  (s.transactions.map PosTransaction.id).Nodup ∧
  (∀ t ∈ s.transactions, t.id < s.nextId) ∧
  (s.refunds.map RefundRecord.original_tx).Nodup ∧
  (∀ r ∈ s.refunds, r.id < s.nextId) ∧
  (∀ r ∈ s.refunds, r.refund_tx < s.nextId) ∧
  (s.items.map Item.id).Nodup

instance (s : Store) : Decidable (Wf s) := by
  unfold Wf; infer_instance


/-! Helper lemmas about the store primitives. -/

lemma find?_map_pres {α : Type} (l : List α) (f : α → α) (p : α → Bool)
    (hf : ∀ a, p (f a) = p a) : (l.map f).find? p = (l.find? p).map f := by
  have hp : p ∘ f = p := funext hf
  rw [List.find?_map, hp]

lemma filter_map_pres {α : Type} (l : List α) (f : α → α) (p : α → Bool)
    (hf : ∀ a, p (f a) = p a) : (l.map f).filter p = (l.filter p).map f := by
  have hp : p ∘ f = p := funext hf
  rw [List.filter_map, hp]

lemma sumTot_eq (ls : List TransactionLine) : sumTot ls = sumSub ls + sumTax ls := by
  unfold sumTot sumSub sumTax
  induction ls with
  | nil => simp
  | cons l t ih =>
    simp only [List.map_cons, List.sum_cons, ih, lineTot]
    ring

lemma findTx_of_eq (s : Store) (i : Nat) (t : PosTransaction)
    (h : findTx s i = some t) : t.id = i := by
  have := List.find?_some h
  simpa using this

lemma findTx_mem (s : Store) (i : Nat) (t : PosTransaction)
    (h : findTx s i = some t) : t ∈ s.transactions :=
  List.mem_of_find?_eq_some h

lemma getItem_of_eq (s : Store) (i : Nat) (it : Item)
    (h : getItem s i = some it) : it.id = i := by
  have := List.find?_some h
  simpa using this

lemma findTx_fresh (s : Store) (h : ∀ t ∈ s.transactions, t.id < s.nextId) :
    findTx s s.nextId = none := by
  apply List.find?_eq_none.mpr
  intro t ht
  simp only [decide_eq_true_eq]
  exact Nat.ne_of_lt (h t ht)

lemma findTx_setStatus (s : Store) (txId : Nat) (st : TxStatus) (i : Nat) :
    findTx (setStatus s txId st) i =
      (findTx s i).map (fun t : PosTransaction =>
        if t.id = txId then { t with status := st } else t) := by
  unfold findTx setStatus
  apply find?_map_pres
  intro t
  by_cases h : t.id = txId <;> simp [h]

lemma setStatus_lines (s : Store) (txId : Nat) (st : TxStatus) :
    (setStatus s txId st).lines = s.lines := rfl

lemma setStatus_items (s : Store) (txId : Nat) (st : TxStatus) :
    (setStatus s txId st).items = s.items := rfl

lemma setStatus_payments (s : Store) (txId : Nat) (st : TxStatus) :
    (setStatus s txId st).payments = s.payments := rfl

lemma setStatus_refunds (s : Store) (txId : Nat) (st : TxStatus) :
    (setStatus s txId st).refunds = s.refunds := rfl

lemma setStatus_nextId (s : Store) (txId : Nat) (st : TxStatus) :
    (setStatus s txId st).nextId = s.nextId := rfl

lemma txLines_setStatus (s : Store) (txId : Nat) (st : TxStatus) (i : Nat) :
    txLines (setStatus s txId st) i = txLines s i := rfl

lemma txLines_markLines (s : Store) (ids : List Nat) (rid : Nat) (i : Nat) :
    txLines (markLines s ids rid) i = (txLines s i).map (markOf ids rid) := by
  unfold txLines markLines
  apply filter_map_pres
  intro l
  by_cases h : l.id ∈ ids <;> simp [markOf, h]

lemma markLines_items (s : Store) (ids : List Nat) (rid : Nat) :
    (markLines s ids rid).items = s.items := rfl

lemma markLines_transactions (s : Store) (ids : List Nat) (rid : Nat) :
    (markLines s ids rid).transactions = s.transactions := rfl

lemma markLines_payments (s : Store) (ids : List Nat) (rid : Nat) :
    (markLines s ids rid).payments = s.payments := rfl

lemma markLines_refunds (s : Store) (ids : List Nat) (rid : Nat) :
    (markLines s ids rid).refunds = s.refunds := rfl

lemma markLines_nextId (s : Store) (ids : List Nat) (rid : Nat) :
    (markLines s ids rid).nextId = s.nextId := rfl

lemma decFold_lines (ls : List TransactionLine) (s : Store) :
    (decFold s ls).lines = s.lines := by
  induction ls generalizing s with
  | nil => rfl
  | cons l t ih => exact ih (decrementItem s l.item_id l.quantity)

lemma decFold_transactions (ls : List TransactionLine) (s : Store) :
    (decFold s ls).transactions = s.transactions := by
  induction ls generalizing s with
  | nil => rfl
  | cons l t ih => exact ih (decrementItem s l.item_id l.quantity)

lemma decFold_payments (ls : List TransactionLine) (s : Store) :
    (decFold s ls).payments = s.payments := by
  induction ls generalizing s with
  | nil => rfl
  | cons l t ih => exact ih (decrementItem s l.item_id l.quantity)

lemma decFold_refunds (ls : List TransactionLine) (s : Store) :
    (decFold s ls).refunds = s.refunds := by
  induction ls generalizing s with
  | nil => rfl
  | cons l t ih => exact ih (decrementItem s l.item_id l.quantity)

lemma decFold_nextId (ls : List TransactionLine) (s : Store) :
    (decFold s ls).nextId = s.nextId := by
  induction ls generalizing s with
  | nil => rfl
  | cons l t ih => exact ih (decrementItem s l.item_id l.quantity)

lemma incFold_lines (ls : List TransactionLine) (s : Store) :
    (incFold s ls).lines = s.lines := by
  induction ls generalizing s with
  | nil => rfl
  | cons l t ih => exact ih (incrementItem s l.item_id l.quantity)

lemma incFold_transactions (ls : List TransactionLine) (s : Store) :
    (incFold s ls).transactions = s.transactions := by
  induction ls generalizing s with
  | nil => rfl
  | cons l t ih => exact ih (incrementItem s l.item_id l.quantity)

lemma incFold_payments (ls : List TransactionLine) (s : Store) :
    (incFold s ls).payments = s.payments := by
  induction ls generalizing s with
  | nil => rfl
  | cons l t ih => exact ih (incrementItem s l.item_id l.quantity)

lemma incFold_refunds (ls : List TransactionLine) (s : Store) :
    (incFold s ls).refunds = s.refunds := by
  induction ls generalizing s with
  | nil => rfl
  | cons l t ih => exact ih (incrementItem s l.item_id l.quantity)

lemma incFold_nextId (ls : List TransactionLine) (s : Store) :
    (incFold s ls).nextId = s.nextId := by
  induction ls generalizing s with
  | nil => rfl
  | cons l t ih => exact ih (incrementItem s l.item_id l.quantity)

lemma txLines_decFold (ls : List TransactionLine) (s : Store) (i : Nat) :
    txLines (decFold s ls) i = txLines s i := by
  unfold txLines
  rw [decFold_lines]

lemma txLines_incFold (ls : List TransactionLine) (s : Store) (i : Nat) :
    txLines (incFold s ls) i = txLines s i := by
  unfold txLines
  rw [incFold_lines]

lemma findTx_decFold (ls : List TransactionLine) (s : Store) (i : Nat) :
    findTx (decFold s ls) i = findTx s i := by
  unfold findTx
  rw [decFold_transactions]

lemma findTx_incFold (ls : List TransactionLine) (s : Store) (i : Nat) :
    findTx (incFold s ls) i = findTx s i := by
  unfold findTx
  rw [incFold_transactions]

lemma getItem_decrementItem (s : Store) (j : Nat) (q : Int) (i : Nat) :
    getItem (decrementItem s j q) i =
      (getItem s i).map (fun it : Item =>
        if it.id = j then { it with quantity := max 0 (it.quantity - q) } else it) := by
  unfold getItem decrementItem
  apply find?_map_pres
  intro it
  by_cases h : it.id = j <;> simp [h]

lemma getItem_decrementItem_ne (s : Store) (j : Nat) (q : Int) (i : Nat)
    (h : i ≠ j) : getItem (decrementItem s j q) i = getItem s i := by
  rw [getItem_decrementItem]
  cases hf : getItem s i with
  | none => rfl
  | some it =>
    have hid := getItem_of_eq s i it hf
    simp [hid, h]

lemma getItem_incrementItem (s : Store) (j : Nat) (q : Int) (i : Nat) :
    getItem (incrementItem s j q) i =
      (getItem s i).map (fun it : Item =>
        if it.id = j then { it with quantity := it.quantity + q } else it) := by
  unfold getItem incrementItem
  apply find?_map_pres
  intro it
  by_cases h : it.id = j <;> simp [h]

lemma getItem_congr (s1 s2 : Store) (h : s1.items = s2.items) (i : Nat) :
    getItem s1 i = getItem s2 i := by
  unfold getItem
  rw [h]

lemma getItem_decFold_not_mem (ls : List TransactionLine) (s : Store) (i : Nat)
    (h : ∀ l ∈ ls, l.item_id ≠ i) : getItem (decFold s ls) i = getItem s i := by
  induction ls generalizing s with
  | nil => rfl
  | cons l t ih =>
    show getItem (decFold (decrementItem s l.item_id l.quantity) t) i = getItem s i
    rw [ih _ (fun l0 hl0 => h l0 (List.mem_cons_of_mem _ hl0))]
    exact getItem_decrementItem_ne s l.item_id l.quantity i
      (fun he => h l (List.mem_cons_self _ _) he.symm)

lemma getItem_decFold_single (ls : List TransactionLine) (s : Store) (i : Nat)
    (l : TransactionLine)
    (h : ls.filter (fun l0 => l0.item_id = i) = [l]) :
    getItem (decFold s ls) i =
      (getItem s i).map (fun it : Item =>
        { it with quantity := max 0 (it.quantity - l.quantity) }) := by
  induction ls generalizing s with
  | nil => simp at h
  | cons l0 t ih =>
    by_cases h0 : l0.item_id = i
    · rw [List.filter_cons_of_pos (by simpa using h0)] at h
      simp only [List.cons.injEq] at h
      obtain ⟨h01, hnil⟩ := h
      subst h01
      show getItem (decFold (decrementItem s l0.item_id l0.quantity) t) i = _
      rw [getItem_decFold_not_mem t _ i (by
        intro l1 hl1
        have := List.filter_eq_nil_iff.mp hnil l1 hl1
        simpa using this)]
      rw [h0, getItem_decrementItem]
      cases hf : getItem s i with
      | none => rfl
      | some it =>
        have hid := getItem_of_eq s i it hf
        simp [hid]
    · rw [List.filter_cons_of_neg (by simpa using h0)] at h
      show getItem (decFold (decrementItem s l0.item_id l0.quantity) t) i = _
      rw [ih _ h, getItem_decrementItem_ne s l0.item_id l0.quantity i
        (fun he => h0 he.symm)]

lemma decFold_nonneg (ls : List TransactionLine) (s : Store)
    (h : ∀ it ∈ s.items, 0 ≤ it.quantity) :
    ∀ it ∈ (decFold s ls).items, 0 ≤ it.quantity := by
  induction ls generalizing s with
  | nil => exact h
  | cons l t ih =>
    refine ih _ ?_
    intro it hit
    unfold decrementItem at hit
    simp only [List.mem_map] at hit
    obtain ⟨it0, h0, rfl⟩ := hit
    by_cases hc : it0.id = l.item_id
    · simp only [hc, if_pos rfl]
      exact le_max_left 0 _
    · simp only [if_neg hc]
      exact h it0 h0

lemma getOrCreateRefund_lines (s : Store) (i r : Nat) :
    (getOrCreateRefund s i r).2.lines = s.lines := by
  unfold getOrCreateRefund
  cases h : s.refunds.find? (fun x => x.original_tx = i) <;> rfl

lemma getOrCreateRefund_transactions (s : Store) (i r : Nat) :
    (getOrCreateRefund s i r).2.transactions = s.transactions := by
  unfold getOrCreateRefund
  cases h : s.refunds.find? (fun x => x.original_tx = i) <;> rfl

lemma getOrCreateRefund_payments (s : Store) (i r : Nat) :
    (getOrCreateRefund s i r).2.payments = s.payments := by
  unfold getOrCreateRefund
  cases h : s.refunds.find? (fun x => x.original_tx = i) <;> rfl

lemma getOrCreateRefund_items (s : Store) (i r : Nat) :
    (getOrCreateRefund s i r).2.items = s.items := by
  unfold getOrCreateRefund
  cases h : s.refunds.find? (fun x => x.original_tx = i) <;> rfl

lemma getOrCreateRefund_spec (s : Store) (i r : Nat) :
    (∃ rec, s.refunds.find? (fun x => x.original_tx = i) = some rec ∧
        getOrCreateRefund s i r = (rec.id, s)) ∨
    (s.refunds.find? (fun x => x.original_tx = i) = none ∧
        getOrCreateRefund s i r =
          (s.nextId, { s with
            refunds := s.refunds ++ [{ id := s.nextId, original_tx := i, refund_tx := r }],
            nextId := s.nextId + 1 })) := by
  unfold getOrCreateRefund
  cases h : s.refunds.find? (fun x => x.original_tx = i) with
  | none => right; exact ⟨rfl, rfl⟩
  | some rec => left; exact ⟨rec, rfl, rfl⟩

lemma finalize_eq (s : Store) (i : Nat) (c : ℚ) :
    finalize s i c =
      if c ≤ 0 then .error .invalidInput
      else
        match findTx s i with
        | none => .error .notFound
        | some t =>
          if t.status ≠ TxStatus.opened then .error .invalidState
          else if c < t.total then .error .insufficientPayment
          else .ok (finalizeApply s i c t) := by
  unfold finalize finalizeChecks
  by_cases h1 : c ≤ 0
  · simp [h1]
  · simp only [h1, if_false]
    cases hfx : findTx s i with
    | none => simp
    | some t =>
      by_cases h2 : t.status = TxStatus.opened
      · by_cases h3 : c < t.total <;> simp [h2, h3]
      · simp [h2]

lemma finalize_ok_spec {s : Store} {i : Nat} {c : ℚ} {out : FinalizeOk} {s' : Store}
    (h : finalize s i c = .ok (out, s')) :
    ∃ t, findTx s i = some t ∧ 0 < c ∧ t.status = .opened ∧ t.total ≤ c ∧
      out.transaction = { t with status := TxStatus.finalized } ∧
      out.change = c - t.total ∧
      out.changeRounded = round2 (c - t.total) ∧
      out.payment = { id := s.nextId, transaction_id := i, method := "cash",
                      amount := c } ∧
      s'.payments = s.payments ++ [out.payment] ∧
      s'.lines = s.lines ∧
      s'.refunds = s.refunds ∧
      s'.nextId = s.nextId + 1 ∧
      s'.transactions = s.transactions.map (fun t0 : PosTransaction =>
        if t0.id = i then { t0 with status := TxStatus.finalized } else t0) ∧
      (∀ j l, (txLines s i).filter (fun l0 => l0.item_id = j) = [l] →
        getItem s' j = (getItem s j).map (fun it : Item =>
          { it with quantity := max 0 (it.quantity - l.quantity) })) ∧
      (∀ j, (∀ l ∈ txLines s i, l.item_id ≠ j) → getItem s' j = getItem s j) ∧
      ((∀ it ∈ s.items, 0 ≤ it.quantity) → ∀ it ∈ s'.items, 0 ≤ it.quantity) := by
  rw [finalize_eq] at h
  by_cases h1 : c ≤ 0
  · simp [h1] at h
  · simp only [h1, if_false] at h
    cases hfx : findTx s i with
    | none => rw [hfx] at h; simp at h
    | some t =>
      rw [hfx] at h
      by_cases h2 : t.status = TxStatus.opened
      · simp only [h2, ne_eq, not_true_eq_false, if_false] at h
        by_cases h3 : c < t.total
        · simp [h3] at h
        · simp only [h3, if_false, Except.ok.injEq] at h
          refine ⟨t, rfl, lt_of_not_le h1, h2, le_of_not_lt h3, ?_⟩
          unfold finalizeApply at h
          obtain ⟨hout, hs⟩ := Prod.mk.injEq .. ▸ h
          subst hout
          subst hs
          refine ⟨rfl, rfl, rfl, rfl, ?_, ?_, ?_, ?_, ?_, ?_, ?_, ?_⟩
          · show (decFold _ _).payments = _
            rw [decFold_payments]
            rfl
          · show (decFold _ _).lines = _
            rw [decFold_lines]
            rfl
          · show (decFold _ _).refunds = _
            rw [decFold_refunds]
            rfl
          · show (decFold _ _).nextId = _
            rw [decFold_nextId]
            rfl
          · show (decFold _ _).transactions = _
            rw [decFold_transactions]
            rfl
          · intro j l hl
            have hmid : getItem ((insertPayment (setStatus s i .finalized) i c).2) j
                = getItem s j := getItem_congr _ _ rfl j
            show getItem (decFold _ (txLines _ i)) j = _
            rw [show txLines ((insertPayment (setStatus s i .finalized) i c).2) i
                  = txLines s i from rfl]
            rw [getItem_decFold_single (txLines s i) _ j l hl, hmid]
          · intro j hj
            have hmid : getItem ((insertPayment (setStatus s i .finalized) i c).2) j
                = getItem s j := getItem_congr _ _ rfl j
            show getItem (decFold _ (txLines _ i)) j = _
            rw [show txLines ((insertPayment (setStatus s i .finalized) i c).2) i
                  = txLines s i from rfl]
            rw [getItem_decFold_not_mem (txLines s i) _ j hj, hmid]
          · intro hpos
            refine decFold_nonneg _ _ ?_
            intro it hit
            exact hpos it hit
      · simp [h2] at h

lemma findTx_totupdate (s : Store) (i : Nat) (f : PosTransaction → PosTransaction)
    (hf : ∀ t, (f t).id = t.id) :
    findTx { s with transactions := s.transactions.map f } i = (findTx s i).map f := by
  unfold findTx
  exact find?_map_pres _ f _ (fun t => by simp [hf t])


lemma findTx_mapTot (ts : List PosTransaction) (j i : Nat) (a b c : ℚ) :
    List.find? (fun t : PosTransaction => t.id = j)
      (ts.map (fun t : PosTransaction =>
        if t.id = i then { t with subtotal := a, tax := b, total := c } else t)) =
    (ts.find? (fun t : PosTransaction => t.id = j)).map (fun t : PosTransaction =>
        if t.id = i then { t with subtotal := a, tax := b, total := c } else t) := by
  apply find?_map_pres
  intro t
  by_cases ht : t.id = i <;> simp [ht]


lemma addLine_ok_spec {s : Store} {i : Nat} {bc : String} {q : Int}
    {out : AddLineOk} {s' : Store}
    (h : addLine s i bc q = .ok (out, s')) :
    ∃ item t0,
      bc ≠ "" ∧ 0 < q ∧
      getItem s item.id = some item ∧ item.is_active = true ∧
      findTx s i = some t0 ∧
      out.line = { id := s.nextId, transaction_id := i, item_id := item.id,
                   quantity := q, unit_price := item.price, tax_rate := item.tax_rate,
                   line_total := item.price * (q : ℚ) + item.price * (q : ℚ) * item.tax_rate,
                   refunded_by := none } ∧
      s'.lines = s.lines ++ [out.line] ∧
      s'.items = s.items ∧ s'.payments = s.payments ∧ s'.refunds = s.refunds ∧
      s'.nextId = s.nextId + 1 ∧
      txLines s' i = txLines s i ++ [out.line] ∧
      (∀ j, j ≠ i → txLines s' j = txLines s j) ∧
      (∀ j, j ≠ i → findTx s' j = findTx s j) ∧
      findTx s' i = some out.transaction ∧
      out.transaction.id = i ∧
      out.transaction.subtotal = sumSub (txLines s' i) ∧
      out.transaction.tax = sumTax (txLines s' i) ∧
      out.transaction.total = sumTot (txLines s' i) := by
  unfold addLine addLineChecks at h
  by_cases h1 : bc = ""
  · simp [h1] at h
  · simp only [h1, if_false] at h
    by_cases h2 : q ≤ 0
    · simp [h2] at h
    · simp only [h2, if_false] at h
      cases hbc : s.barcodes.find? (fun b => b.1 = bc) with
      | none => simp only [hbc] at h; exact Except.noConfusion h
      | some b =>
        simp only [hbc] at h
        cases hgi : getItem s b.2 with
        | none => simp only [hgi] at h; exact Except.noConfusion h
        | some item =>
          simp only [hgi] at h
          by_cases h3 : item.is_active = false
          · simp [h3] at h
          · have hact : item.is_active = true := by
              cases hcase : item.is_active
              · exact absurd hcase h3
              · rfl
            rw [hact] at h
            simp only [Bool.true_eq_false, if_false] at h
            cases hfx : findTx s i with
            | none => simp only [hfx] at h; exact Except.noConfusion h
            | some t0 =>
              simp only [hfx] at h
              unfold addLineApply at h
              try dsimp only at h
              have hid : item.id = b.2 := getItem_of_eq s b.2 item hgi
              split at h
              · exact Except.noConfusion h
              · rename_i u heq
                rw [Except.ok.injEq, Prod.mk.injEq] at h
                obtain ⟨hout, hs⟩ := h
                have huid : u.id = i := by simpa using List.find?_some heq
                have hmem2 := List.mem_of_find?_eq_some heq
                obtain ⟨t1, ht1, hte⟩ := List.mem_map.mp hmem2
                try dsimp only at hte
                have hufields : u.subtotal = sumSub (txLines s' i) ∧
                    u.tax = sumTax (txLines s' i) ∧ u.total = sumTot (txLines s' i) := by
                  by_cases ht1i : t1.id = i
                  · rw [if_pos ht1i] at hte
                    rw [← hte, ← hs]
                    exact ⟨rfl, rfl, rfl⟩
                  · rw [if_neg ht1i] at hte
                    exact absurd (hte ▸ huid) ht1i
                refine ⟨item, t0, h1, lt_of_not_le h2, hid ▸ hgi, hact, rfl,
                        ?_, ?_, ?_, ?_, ?_, ?_, ?_, ?_, ?_, ?_, ?_, ?_, ?_, ?_⟩
                · rw [← hout]
                · rw [← hs, ← hout]
                · rw [← hs]
                · rw [← hs]
                · rw [← hs]
                · rw [← hs]
                · rw [← hs, ← hout]
                  simp [txLines, List.filter_append]
                · intro j hj
                  rw [← hs]
                  have hne : ¬ ((i : Nat) = j) := fun he => hj he.symm
                  simp [txLines, List.filter_append, hne]
                · intro j hj
                  rw [← hs]
                  show List.find? _ (List.map _ s.transactions) = findTx s j
                  rw [findTx_mapTot]
                  unfold findTx
                  cases hcase : List.find? (fun t : PosTransaction => t.id = j)
                      s.transactions with
                  | none => rfl
                  | some tj =>
                    have htj : tj.id = j := by simpa using List.find?_some hcase
                    simp [htj, hj]
                · rw [← hs, ← hout]
                  exact heq
                · rw [← hout]
                  exact huid
                · rw [← hout]
                  exact hufields.1
                · rw [← hout]
                  exact hufields.2.1
                · rw [← hout]
                  exact hufields.2.2

lemma txLines_congr {s1 s2 : Store} (h : s1.lines = s2.lines) (i : Nat) :
    txLines s1 i = txLines s2 i := by
  unfold txLines
  rw [h]

lemma insertPayment_snd_payments (s : Store) (a : Nat) (amt : ℚ) :
    (insertPayment s a amt).2.payments = s.payments ++ [(insertPayment s a amt).1] := rfl

lemma insertPayment_fst (s : Store) (a : Nat) (amt : ℚ) :
    (insertPayment s a amt).1 =
      { id := s.nextId, transaction_id := a, method := "cash", amount := amt } := rfl

lemma insertPayment_snd_lines (s : Store) (a : Nat) (amt : ℚ) :
    (insertPayment s a amt).2.lines = s.lines := rfl

lemma insertPayment_snd_transactions (s : Store) (a : Nat) (amt : ℚ) :
    (insertPayment s a amt).2.transactions = s.transactions := rfl

lemma insertPayment_snd_refunds (s : Store) (a : Nat) (amt : ℚ) :
    (insertPayment s a amt).2.refunds = s.refunds := rfl

lemma insertPayment_snd_items (s : Store) (a : Nat) (amt : ℚ) :
    (insertPayment s a amt).2.items = s.items := rfl

lemma ite_setStatus_lines (c : Prop) [Decidable c] (s : Store) (i : Nat) (st : TxStatus) :
    (if c then setStatus s i st else s).lines = s.lines := by
  split <;> rfl

lemma ite_setStatus_payments (c : Prop) [Decidable c] (s : Store) (i : Nat) (st : TxStatus) :
    (if c then setStatus s i st else s).payments = s.payments := by
  split <;> rfl

lemma ite_setStatus_refunds (c : Prop) [Decidable c] (s : Store) (i : Nat) (st : TxStatus) :
    (if c then setStatus s i st else s).refunds = s.refunds := by
  split <;> rfl

lemma ite_setStatus_nextId (c : Prop) [Decidable c] (s : Store) (i : Nat) (st : TxStatus) :
    (if c then setStatus s i st else s).nextId = s.nextId := by
  split <;> rfl

lemma ite_setStatus_items (c : Prop) [Decidable c] (s : Store) (i : Nat) (st : TxStatus) :
    (if c then setStatus s i st else s).items = s.items := by
  split <;> rfl


lemma txLines_incFold_markLines (X : Store) (sel : List TransactionLine)
    (ids : List Nat) (rid i : Nat) :
    txLines (incFold (markLines X ids rid) sel) i =
      (txLines X i).map (markOf ids rid) := by
  rw [txLines_incFold, txLines_markLines]


lemma txLines_mk (its : List Item) (bcs : List (String × Nat))
    (ts : List PosTransaction) (ls : List TransactionLine) (pays : List Payment)
    (refs : List RefundRecord) (n : Nat) (i : Nat) :
    txLines (Store.mk its bcs ts ls pays refs n) i =
      ls.filter (fun l => l.transaction_id = i) := rfl

lemma refundApply_spec (s : Store) (i : Nat) (ids : List Nat) (tx : PosTransaction)
    (sel : List TransactionLine) :
    ∃ rid pid,
      (refundApply s i ids tx sel).1.originalTransaction = tx ∧
      (refundApply s i ids tx sel).1.refundTransaction = refundTxOf s sel ∧
      (refundApply s i ids tx sel).1.refundAmount = round2 (sumStored sel) ∧
      (refundApply s i ids tx sel).1.remainingUnrefunded =
        ((txLines s i).map (markOf ids rid)).any (fun l => l.refunded_by = none) ∧
      (refundApply s i ids tx sel).2.lines = s.lines.map (markOf ids rid) ∧
      (refundApply s i ids tx sel).2.transactions =
        (if ((txLines s i).map (markOf ids rid)).all (fun l => l.refunded_by.isSome)
         then (s.transactions ++ [refundTxOf s sel]).map (fun t : PosTransaction =>
            if t.id = i then { t with status := TxStatus.refunded } else t)
         else s.transactions ++ [refundTxOf s sel]) ∧
      (refundApply s i ids tx sel).2.payments = s.payments ++
        [{ id := pid, transaction_id := (refundTxOf s sel).id, method := "cash",
           amount := -(round2 (sumStored sel)) }] ∧
      ((∃ rec ∈ s.refunds, rec.original_tx = i ∧ rid = rec.id ∧
          (refundApply s i ids tx sel).2.refunds = s.refunds) ∨
       ((∀ rec ∈ s.refunds, rec.original_tx ≠ i) ∧ rid = s.nextId + 1 ∧
          (refundApply s i ids tx sel).2.refunds = s.refunds ++
            [{ id := s.nextId + 1, original_tx := i,
               refund_tx := (refundTxOf s sel).id }])) := by
  unfold refundApply
  dsimp only
  have hspec := getOrCreateRefund_spec
      { s with transactions := s.transactions ++ [refundTxOf s sel], nextId := s.nextId + 1 }
      i (refundTxOf s sel).id
  rcases hspec with hcase | hcase
  · obtain ⟨rec, hfind, hG⟩ := hcase
    have hrec1 : rec.original_tx = i := by simpa using List.find?_some hfind
    have hrec2 : rec ∈ s.refunds := List.mem_of_find?_eq_some hfind
    rw [hG]
    dsimp only
    refine ⟨rec.id, s.nextId + 1, rfl, rfl, rfl, ?_, ?_, ?_, ?_,
            Or.inl ⟨rec, hrec2, hrec1, rfl, ?_⟩⟩
    · rw [txLines_incFold_markLines]
      simp only [txLines_mk, txLines]
    · rw [insertPayment_snd_lines, ite_setStatus_lines, incFold_lines]
      rfl
    · rw [insertPayment_snd_transactions, txLines_incFold_markLines]
      simp only [txLines_mk, txLines]
      split
      · unfold setStatus
        rw [incFold_transactions]
        rfl
      · rw [incFold_transactions]
        rfl
    · rw [insertPayment_snd_payments, insertPayment_fst, ite_setStatus_payments,
          incFold_payments, ite_setStatus_nextId, incFold_nextId]
      rfl
    · rw [insertPayment_snd_refunds, ite_setStatus_refunds, incFold_refunds]
      rfl
  · obtain ⟨hfind, hG⟩ := hcase
    have hnone : ∀ rec ∈ s.refunds, rec.original_tx ≠ i := by
      intro rec hrec
      have := List.find?_eq_none.mp hfind rec hrec
      simpa using this
    rw [hG]
    dsimp only
    refine ⟨s.nextId + 1, s.nextId + 2, rfl, rfl, rfl, ?_, ?_, ?_, ?_,
            Or.inr ⟨hnone, rfl, ?_⟩⟩
    · rw [txLines_incFold_markLines]
      simp only [txLines_mk, txLines]
    · rw [insertPayment_snd_lines, ite_setStatus_lines, incFold_lines]
      rfl
    · rw [insertPayment_snd_transactions, txLines_incFold_markLines]
      simp only [txLines_mk, txLines]
      split
      · unfold setStatus
        rw [incFold_transactions]
        rfl
      · rw [incFold_transactions]
        rfl
    · rw [insertPayment_snd_payments, insertPayment_fst, ite_setStatus_payments,
          incFold_payments, ite_setStatus_nextId, incFold_nextId]
      rfl
    · rw [insertPayment_snd_refunds, ite_setStatus_refunds, incFold_refunds]
      rfl

lemma refund_ok_spec {s : Store} {i : Nat} {ids : List Nat} {out : RefundOk}
    {s' : Store} (h : refund s i ids = .ok (out, s')) :
    ∃ tx,
      ids ≠ [] ∧ findTx s i = some tx ∧ tx.status = TxStatus.finalized ∧
      ((txLines s i).filter (fun l => l.id ∈ ids)).length = ids.length ∧
      (∀ l ∈ (txLines s i).filter (fun l => l.id ∈ ids), l.refunded_by = none) ∧
      (out, s') = refundApply s i ids tx
        ((txLines s i).filter (fun l => l.id ∈ ids)) := by
  unfold refund refundChecks at h
  by_cases h1 : ids = []
  · simp [h1] at h
  · rw [if_neg h1] at h
    cases hfx : findTx s i with
    | none => simp only [hfx] at h; exact Except.noConfusion h
    | some tx =>
      simp only [hfx] at h
      by_cases h2 : tx.status = TxStatus.finalized
      · rw [if_neg (by simp [h2] : ¬¬tx.status = TxStatus.finalized)] at h
        by_cases h3 :
            ((txLines s i).filter (fun l => l.id ∈ ids)).length ≠ ids.length
        · rw [if_pos h3] at h; exact Except.noConfusion h
        · rw [if_neg h3] at h
          by_cases h4 : ((txLines s i).filter (fun l => l.id ∈ ids)).any
              (fun l => l.refunded_by.isSome) = true
          · rw [if_pos h4] at h; exact Except.noConfusion h
          · rw [if_neg h4] at h
            try dsimp only at h
            rw [Except.ok.injEq] at h
            refine ⟨tx, h1, rfl, h2, not_ne_iff.mp h3, ?_, h.symm⟩
            intro l hl
            have h4f : ((txLines s i).filter (fun l => l.id ∈ ids)).any
                (fun l => l.refunded_by.isSome) = false := by
              cases hc : ((txLines s i).filter (fun l => l.id ∈ ids)).any
                  (fun l => l.refunded_by.isSome)
              · rfl
              · exact absurd hc h4
            have := List.any_eq_false.mp h4f l hl
            simpa [Option.not_isSome_iff_eq_none] using this
      · rw [if_pos (by simp [h2] : tx.status ≠ TxStatus.finalized)] at h
        exact Except.noConfusion h

lemma refund_error_conds (s : Store) (i : Nat) (ids : List Nat) :
    (ids = [] → refund s i ids = .error .invalidInput) ∧
    (ids ≠ [] → findTx s i = none → refund s i ids = .error .notFound) ∧
    (∀ tx, ids ≠ [] → findTx s i = some tx → tx.status ≠ TxStatus.finalized →
       refund s i ids = .error .invalidState) ∧
    (∀ tx, ids ≠ [] → findTx s i = some tx → tx.status = TxStatus.finalized →
       ((txLines s i).filter (fun l => l.id ∈ ids)).length ≠ ids.length →
       refund s i ids = .error .invalidInput) ∧
    (∀ tx, ids ≠ [] → findTx s i = some tx → tx.status = TxStatus.finalized →
       ((txLines s i).filter (fun l => l.id ∈ ids)).length = ids.length →
       ((txLines s i).filter (fun l => l.id ∈ ids)).any
         (fun l => l.refunded_by.isSome) = true →
       refund s i ids = .error .invalidInput) := by
  refine ⟨?_, ?_, ?_, ?_, ?_⟩
  · intro h1
    simp [refund, refundChecks, h1]
  · intro h1 hfx
    unfold refund refundChecks
    rw [if_neg h1]
    simp only [hfx]
  · intro tx h1 hfx h2
    unfold refund refundChecks
    rw [if_neg h1]
    simp only [hfx]
    rw [if_pos h2]
  · intro tx h1 hfx h2 h3
    unfold refund refundChecks
    rw [if_neg h1]
    simp only [hfx]
    rw [if_neg (by simp [h2] : ¬¬tx.status = TxStatus.finalized), if_pos h3]
  · intro tx h1 hfx h2 h3 h4
    unfold refund refundChecks
    rw [if_neg h1]
    simp only [hfx]
    rw [if_neg (by simp [h2] : ¬¬tx.status = TxStatus.finalized), if_neg
        (by simp [h3] : ¬((txLines s i).filter (fun l => l.id ∈ ids)).length ≠ ids.length),
        if_pos h4]

lemma openTransaction_spec (s : Store)
    (hl : ∀ l ∈ s.lines, l.transaction_id < s.nextId)
    (ht : ∀ t ∈ s.transactions, t.id < s.nextId) :
    (openTransaction s).1.status = TxStatus.opened ∧
    (openTransaction s).1.subtotal = 0 ∧ (openTransaction s).1.tax = 0 ∧
    (openTransaction s).1.total = 0 ∧
    txLines (openTransaction s).2 (openTransaction s).1.id = [] ∧
    findTx (openTransaction s).2 (openTransaction s).1.id =
      some (openTransaction s).1 ∧
    (openTransaction s).2.lines = s.lines ∧
    (openTransaction s).2.items = s.items ∧
    (openTransaction s).2.payments = s.payments ∧
    (openTransaction s).2.refunds = s.refunds := by
  refine ⟨rfl, rfl, rfl, rfl, ?_, ?_, rfl, rfl, rfl, rfl⟩
  · show s.lines.filter _ = []
    rw [List.filter_eq_nil_iff]
    intro l hl0
    simp only [decide_eq_true_eq]
    exact Nat.ne_of_lt (hl l hl0)
  · show (s.transactions ++ [_]).find? _ = _
    rw [show (openTransaction s).1.id = s.nextId from rfl, List.find?_append]
    have h1 : s.transactions.find? (fun t => t.id = s.nextId) = none := by
      rw [List.find?_eq_none]
      intro t htm
      simp only [decide_eq_true_eq]
      exact Nat.ne_of_lt (ht t htm)
    rw [h1]
    rw [Option.none_or]
    rw [List.find?_cons_of_pos _ (by simp)]
    rfl

lemma length_lt_of_missing {m ids : List Nat} (hm : m.Nodup)
    (hsub : ∀ x ∈ m, x ∈ ids) {y : Nat} (hy : y ∈ ids) (hym : y ∉ m) :
    m.length < ids.length := by
  have h1 : m.toFinset ⊆ ids.toFinset.erase y := by
    intro x hx
    rw [List.mem_toFinset] at hx
    exact Finset.mem_erase.mpr
      ⟨fun he => hym (he ▸ hx), List.mem_toFinset.mpr (hsub x hx)⟩
  have h2 : m.toFinset.card ≤ (ids.toFinset.erase y).card := Finset.card_le_card h1
  have h3 : (ids.toFinset.erase y).card < ids.toFinset.card :=
    Finset.card_erase_lt_of_mem (List.mem_toFinset.mpr hy)
  have h4 : m.toFinset.card = m.length := List.toFinset_card_of_nodup hm
  have h5 : ids.toFinset.card ≤ ids.length := ids.toFinset_card_le
  omega

lemma sel_sublist (s : Store) (i : Nat) (ids : List Nat) :
    List.Sublist ((txLines s i).filter (fun l => l.id ∈ ids)) s.lines :=
  List.Sublist.trans (List.filter_sublist _) (List.filter_sublist _)

lemma sel_map_id_nodup (s : Store) (i : Nat) (ids : List Nat)
    (h : (s.lines.map TransactionLine.id).Nodup) :
    (((txLines s i).filter (fun l => l.id ∈ ids)).map TransactionLine.id).Nodup :=
  h.sublist (List.Sublist.map _ (sel_sublist s i ids))

lemma refund_refunded_line_fails (s : Store) (i : Nat) (ids : List Nat)
    (hWf : Wf s) (l : TransactionLine) (hl : l ∈ s.lines) (hin : l.id ∈ ids)
    (r : Nat) (hr : l.refunded_by = some r) :
    ∃ e, refund s i ids = .error e := by
  obtain ⟨hnodup, _, _, _, _, _, _, _, _⟩ := hWf
  have h1 : ids ≠ [] := List.ne_nil_of_mem hin
  have conds := refund_error_conds s i ids
  cases hfx : findTx s i with
  | none => exact ⟨.notFound, conds.2.1 h1 hfx⟩
  | some tx =>
    by_cases h2 : tx.status = TxStatus.finalized
    · by_cases hmem : l.transaction_id = i
      · have hsel : l ∈ (txLines s i).filter (fun l => l.id ∈ ids) := by
          rw [List.mem_filter]
          refine ⟨?_, by simpa using hin⟩
          rw [txLines, List.mem_filter]
          exact ⟨hl, by simpa using hmem⟩
        have hany : ((txLines s i).filter (fun l => l.id ∈ ids)).any
            (fun l => l.refunded_by.isSome) = true := by
          rw [List.any_eq_true]
          exact ⟨l, hsel, by simp [hr]⟩
        by_cases h3 :
            ((txLines s i).filter (fun l => l.id ∈ ids)).length ≠ ids.length
        · exact ⟨.invalidInput, conds.2.2.2.1 tx h1 hfx h2 h3⟩
        · exact ⟨.invalidInput,
            conds.2.2.2.2 tx h1 hfx h2 (not_ne_iff.mp h3) hany⟩
      · have hlt : ((txLines s i).filter (fun l => l.id ∈ ids)).length <
            ids.length := by
          have := @length_lt_of_missing (((txLines s i).filter
              (fun l => l.id ∈ ids)).map TransactionLine.id) ids
            (sel_map_id_nodup s i ids hnodup) ?_ l.id hin ?_
          · simpa using this
          · intro x hx
            rw [List.mem_map] at hx
            obtain ⟨l0, hl0, rfl⟩ := hx
            rw [List.mem_filter] at hl0
            simpa using hl0.2
          · intro hcon
            rw [List.mem_map] at hcon
            obtain ⟨l0, hl0, hideq⟩ := hcon
            have hl0mem : l0 ∈ s.lines :=
              (sel_sublist s i ids).subset hl0
            have : l0 = l :=
              List.inj_on_of_nodup_map hnodup hl0mem hl hideq
            subst this
            rw [List.mem_filter] at hl0
            have : l0 ∈ txLines s i := hl0.1
            rw [txLines, List.mem_filter] at this
            exact hmem (by simpa using this.2)
        exact ⟨.invalidInput,
          conds.2.2.2.1 tx h1 hfx h2 (Nat.ne_of_lt hlt)⟩
    · exact ⟨.invalidState, conds.2.2.1 tx h1 hfx h2⟩

lemma txLines_of_marked {s s' : Store} {ids : List Nat} {rid : Nat}
    (h : s'.lines = s.lines.map (markOf ids rid)) (i : Nat) :
    txLines s' i = (txLines s i).map (markOf ids rid) := by
  unfold txLines
  rw [h]
  apply filter_map_pres
  intro l
  unfold markOf
  by_cases hx : l.id ∈ ids <;> simp [hx]

lemma refund_ok_marks_preserved {s : Store} {i : Nat} {ids : List Nat}
    {out : RefundOk} {s' : Store} (hWf : Wf s)
    (h : refund s i ids = .ok (out, s')) :
    ∀ l ∈ s.lines, l.refunded_by.isSome = true →
      ∃ l' ∈ s'.lines, l'.id = l.id ∧ l'.refunded_by = l.refunded_by := by
  intro l hl hsome
  obtain ⟨tx, h1, hfx, h2, hlen, hnone, heq⟩ := refund_ok_spec h
  obtain ⟨rid, pid, _, _, _, _, hlines, _, _, _⟩ :=
    refundApply_spec s i ids tx ((txLines s i).filter (fun l => l.id ∈ ids))
  have hs' : s' =
      (refundApply s i ids tx ((txLines s i).filter (fun l => l.id ∈ ids))).2 :=
    congrArg Prod.snd heq
  have hsl : s'.lines = s.lines.map (markOf ids rid) := by rw [hs']; exact hlines
  have hnotin : l.id ∉ ids := by
    intro hin
    obtain ⟨r, hr⟩ := Option.isSome_iff_exists.mp hsome
    obtain ⟨e, herr⟩ := refund_refunded_line_fails s i ids hWf l hl hin r hr
    rw [h] at herr
    exact Except.noConfusion herr
  refine ⟨markOf ids rid l, by rw [hsl]; exact List.mem_map_of_mem _ hl, ?_, ?_⟩
  · unfold markOf
    rw [if_neg hnotin]
  · unfold markOf
    rw [if_neg hnotin]

lemma refund_ok_original (s : Store) (i : Nat) (ids : List Nat)
    (out : RefundOk) (s' : Store)
    (h : refund s i ids = .ok (out, s')) :
    ∃ tx rid, findTx s i = some tx ∧ tx.status = TxStatus.finalized ∧
      txLines s' i = (txLines s i).map (markOf ids rid) ∧
      (if ((txLines s i).map (markOf ids rid)).all (fun l => l.refunded_by.isSome)
       then findTx s' i = some { tx with status := TxStatus.refunded }
       else findTx s' i = some tx) ∧
      out.remainingUnrefunded =
        ((txLines s i).map (markOf ids rid)).any (fun l => l.refunded_by = none) := by
  obtain ⟨tx, h1, hfx, h2, hlen, hnone, heq⟩ := refund_ok_spec h
  obtain ⟨rid, pid, horig, hrt, hamt, hrem, hlines, htrans, hpays, hrefs⟩ :=
    refundApply_spec s i ids tx ((txLines s i).filter (fun l => l.id ∈ ids))
  have hs' : s' =
      (refundApply s i ids tx ((txLines s i).filter (fun l => l.id ∈ ids))).2 :=
    congrArg Prod.snd heq
  have hout : out =
      (refundApply s i ids tx ((txLines s i).filter (fun l => l.id ∈ ids))).1 :=
    congrArg Prod.fst heq
  have htxid : tx.id = i := findTx_of_eq s i tx hfx
  have hsl : s'.lines = s.lines.map (markOf ids rid) := by rw [hs']; exact hlines
  refine ⟨tx, rid, hfx, h2, txLines_of_marked hsl i, ?_, by rw [hout]; exact hrem⟩
  have hstr : s'.transactions =
      (if ((txLines s i).map (markOf ids rid)).all (fun l => l.refunded_by.isSome)
       then ((s.transactions ++
           [refundTxOf s ((txLines s i).filter (fun l => l.id ∈ ids))]).map
             (fun t : PosTransaction =>
               if t.id = i then { t with status := TxStatus.refunded } else t))
       else s.transactions ++
           [refundTxOf s ((txLines s i).filter (fun l => l.id ∈ ids))]) := by
    rw [hs']
    exact htrans
  have happ : (s.transactions ++
      [refundTxOf s ((txLines s i).filter (fun l => l.id ∈ ids))]).find?
        (fun t => t.id = i) = some tx := by
    rw [List.find?_append]
    have : s.transactions.find? (fun t => t.id = i) = some tx := hfx
    rw [this, Option.or_some]
  split
  · rename_i hall
    unfold findTx
    rw [hstr, if_pos hall]
    rw [find?_map_pres _ _ _ (fun t => by
      by_cases ht : t.id = i <;> simp [ht])]
    rw [happ]
    exact congrArg Option.some (by
      show (if tx.id = i then { tx with status := TxStatus.refunded } else tx) =
        { tx with status := TxStatus.refunded }
      rw [if_pos htxid])
  · rename_i hall
    unfold findTx
    rw [hstr, if_neg hall]
    exact happ

/-- Success/failure discriminator for handler results (`res.ok` vs error). -/
def isOkB {α : Type} (e : Except ApiError α) : Bool :=
  match e with
  | .ok _ => true
  | .error _ => false

lemma getItem_decrementItem_self (s : Store) (j : Nat) (q : Int) :
    getItem (decrementItem s j q) j = (getItem s j).map (fun it : Item =>
      { it with quantity := max 0 (it.quantity - q) }) := by
  rw [getItem_decrementItem]
  cases hf : getItem s j with
  | none => rfl
  | some it =>
    have hid := getItem_of_eq s j it hf
    simp [hid]

lemma getItem_incrementItem_self (s : Store) (j : Nat) (q : Int) :
    getItem (incrementItem s j q) j = (getItem s j).map (fun it : Item =>
      { it with quantity := it.quantity + q }) := by
  rw [getItem_incrementItem]
  cases hf : getItem s j with
  | none => rfl
  | some it =>
    have hid := getItem_of_eq s j it hf
    simp [hid]

lemma finalize_isOk_items (s : Store) (its : List Item) (i : Nat) (c : ℚ) :
    isOkB (finalize { s with items := its } i c) = isOkB (finalize s i c) := by
  unfold finalize
  have hch : finalizeChecks { s with items := its } i c = finalizeChecks s i c := rfl
  rw [hch]
  cases finalizeChecks s i c <;> rfl

lemma finalize_error_iffs (s : Store) (i : Nat) (c : ℚ) :
    (finalize s i c = .error .invalidInput ↔ c ≤ 0) ∧
    (finalize s i c = .error .notFound ↔ 0 < c ∧ findTx s i = none) ∧
    (finalize s i c = .error .invalidState ↔
      0 < c ∧ ∃ t, findTx s i = some t ∧ t.status ≠ TxStatus.opened) ∧
    (finalize s i c = .error .insufficientPayment ↔
      0 < c ∧ ∃ t, findTx s i = some t ∧ t.status = TxStatus.opened ∧ c < t.total) := by
  rw [finalize_eq]
  by_cases h1 : c ≤ 0
  · rw [if_pos h1]
    have hc : ¬ 0 < c := not_lt.mpr h1
    exact ⟨by simp [h1], by simp [hc], by simp [hc], by simp [hc]⟩
  · rw [if_neg h1]
    have hc : 0 < c := lt_of_not_le h1
    cases hfx : findTx s i with
    | none => exact ⟨by simp [h1], by simp [hc], by simp, by simp⟩
    | some t =>
      dsimp only
      by_cases h2 : t.status = TxStatus.opened
      · rw [if_neg (by simp [h2])]
        by_cases h3 : c < t.total
        · rw [if_pos h3]
          exact ⟨by simp [h1], by simp, by simp [h2], by simp [hc, h2, h3]⟩
        · rw [if_neg h3]
          exact ⟨by simp [h1], by simp, by simp [h2], by simp [h2, h3]⟩
      · rw [if_pos (by simp [h2])]
        exact ⟨by simp [h1], by simp, by simp [hc, h2], by simp [h2]⟩

/-- Derived totals invariant of a transaction row in a store: the persisted
total splits as subtotal plus tax, and subtotal/tax are the recomputed sums
over the transaction's current lines. -/
def txInvariant (s : Store) (t : PosTransaction) : Prop :=
  t.total = t.subtotal + t.tax ∧
  t.subtotal = sumSub (txLines s t.id) ∧
  t.tax = sumTax (txLines s t.id)

/-- Claim C1 (amended): for sale transactions the invariant
`total = subtotal + tax` with subtotal/tax the from-scratch sums over the
current lines holds after Open, after each AddLine, and is preserved by
Finalize; the reversal transaction created by Refund instead persists
subtotal, tax and total as the 2-decimal roundings of the refund sums over
the selected lines of the original transaction (it has no lines of its
own), so its fields are not sums over its own line set. -/
theorem claim_C1 (s : Store) (i : Nat) :
    (Wf s → txInvariant (openTransaction s).2 (openTransaction s).1) ∧
    (∀ bc q out s', addLine s i bc q = .ok (out, s') →
      txInvariant s' out.transaction) ∧
    (∀ c out s', finalize s i c = .ok (out, s') →
      ∀ t, findTx s i = some t → txInvariant s t →
        findTx s' i = some { t with status := TxStatus.finalized } ∧
        txInvariant s' { t with status := TxStatus.finalized }) ∧
    (∀ ids out s', refund s i ids = .ok (out, s') →
      out.refundTransaction.subtotal =
        round2 (sumSub ((txLines s i).filter (fun l => l.id ∈ ids))) ∧
      out.refundTransaction.tax =
        round2 (sumTax ((txLines s i).filter (fun l => l.id ∈ ids))) ∧
      out.refundTransaction.total =
        round2 (sumStored ((txLines s i).filter (fun l => l.id ∈ ids)))) := by
  refine ⟨?_, ?_, ?_, ?_⟩
  · intro hWf
    obtain ⟨_, _, hltx, _, hlt, _, _, _, _⟩ := hWf
    obtain ⟨hst, hsub, htax, htot, hemp, hfind, _, _, _, _⟩ :=
      openTransaction_spec s hltx hlt
    exact ⟨by rw [htot, hsub, htax]; norm_num,
           by rw [hsub, hemp]; rfl, by rw [htax, hemp]; rfl⟩
  · intro bc q out s' h
    obtain ⟨item, t0, _, _, _, _, _, _, _, _, _, _, _, _, _, _, _,
            hid, hsub, htax, htot⟩ := addLine_ok_spec h
    refine ⟨?_, ?_, ?_⟩
    · rw [htot, hsub, htax, sumTot_eq]
    · rw [hsub, hid]
    · rw [htax, hid]
  · intro c out s' h t hfx hinv
    obtain ⟨t1, hfx1, _, _, _, _, _, _, _, _, hlines, _, _, htrans, _⟩ :=
      finalize_ok_spec h
    have ht1 : t1 = t := by
      rw [hfx1] at hfx
      exact Option.some.injEq .. ▸ hfx
    subst ht1
    have htid : t1.id = i := findTx_of_eq s i t1 hfx1
    have hfind : findTx s' i = some { t1 with status := TxStatus.finalized } := by
      unfold findTx
      rw [htrans]
      rw [find?_map_pres _ _ _ (fun t2 => by
        by_cases ht : t2.id = i <;> simp [ht])]
      have : s.transactions.find? (fun t2 => t2.id = i) = some t1 := hfx1
      rw [this]
      exact congrArg Option.some (by
        show (if t1.id = i then { t1 with status := TxStatus.finalized } else t1) = _
        rw [if_pos htid])
    have htxl : ∀ j, txLines s' j = txLines s j := fun j => by
      unfold txLines
      rw [hlines]
    refine ⟨hfind, hinv.1, ?_, ?_⟩
    · show t1.subtotal = sumSub (txLines s' t1.id)
      rw [htxl]
      exact hinv.2.1
    · show t1.tax = sumTax (txLines s' t1.id)
      rw [htxl]
      exact hinv.2.2
  · intro ids out s' h
    obtain ⟨tx, _, _, _, _, _, heq⟩ := refund_ok_spec h
    obtain ⟨rid, pid, _, hrt, _, _, _, _, _, _⟩ :=
      refundApply_spec s i ids tx ((txLines s i).filter (fun l => l.id ∈ ids))
    have hout : out =
        (refundApply s i ids tx ((txLines s i).filter (fun l => l.id ∈ ids))).1 :=
      congrArg Prod.fst heq
    rw [hout, hrt]
    exact ⟨rfl, rfl, rfl⟩

/-- Claim C3: Finalize fails InvalidInput exactly when the cash amount is
nonpositive; with positive cash it fails NotFound exactly when the
transaction is absent, InvalidState exactly when its status is not open,
InsufficientPayment exactly when the cash is below the total; otherwise it
succeeds with change = cashAmount - total (rounded to two decimals for
display), in particular zero change for exact payment. -/
theorem claim_C3 (s : Store) (i : Nat) (c : ℚ) :
    (finalize s i c = .error .invalidInput ↔ c ≤ 0) ∧
    (finalize s i c = .error .notFound ↔ 0 < c ∧ findTx s i = none) ∧
    (finalize s i c = .error .invalidState ↔
      0 < c ∧ ∃ t, findTx s i = some t ∧ t.status ≠ TxStatus.opened) ∧
    (finalize s i c = .error .insufficientPayment ↔
      0 < c ∧ ∃ t, findTx s i = some t ∧ t.status = TxStatus.opened ∧ c < t.total) ∧
    (∀ t, findTx s i = some t → t.status = TxStatus.opened → 0 < c →
      t.total ≤ c →
      ∃ out s', finalize s i c = .ok (out, s') ∧ out.change = c - t.total ∧
        out.changeRounded = round2 (c - t.total) ∧
        (c = t.total → out.change = 0)) := by
  obtain ⟨h1, h2, h3, h4⟩ := finalize_error_iffs s i c
  refine ⟨h1, h2, h3, h4, ?_⟩
  intro t hfx hst hc htot
  refine ⟨(finalizeApply s i c t).1, (finalizeApply s i c t).2, ?_, rfl, rfl, ?_⟩
  · rw [finalize_eq, if_neg (not_le.mpr hc), hfx]
    dsimp only
    rw [if_neg (by simp [hst]), if_neg (not_lt.mpr htot)]
  · intro hce
    show c - t.total = 0
    rw [hce]
    ring

/-- Claim C4: on a successful Finalize each sold item's on-hand quantity
becomes `max(0, quantity - line.quantity)` (stated for an item sold on
exactly one line; lines whose item row is absent are skipped without
aborting the others), quantities never go negative, success never depends
on the stock levels, and the Inventory Reconciler contract holds:
Decrement floors at zero, Increment adds back unboundedly. -/
theorem claim_C4 :
    (∀ s i c out s', finalize s i c = .ok (out, s') →
       (∀ j l, (txLines s i).filter (fun l0 => l0.item_id = j) = [l] →
          getItem s' j = (getItem s j).map (fun it : Item =>
            { it with quantity := max 0 (it.quantity - l.quantity) })) ∧
       ((∀ it ∈ s.items, 0 ≤ it.quantity) → ∀ it ∈ s'.items, 0 ≤ it.quantity)) ∧
    (∀ s i c (its : List Item),
       isOkB (finalize { s with items := its } i c) = isOkB (finalize s i c)) ∧
    (∀ s j q, getItem (decrementItem s j q) j = (getItem s j).map (fun it : Item =>
       { it with quantity := max 0 (it.quantity - q) })) ∧
    (∀ s j q, getItem (incrementItem s j q) j = (getItem s j).map (fun it : Item =>
       { it with quantity := it.quantity + q })) := by
  refine ⟨?_, fun s i c its => finalize_isOk_items s its i c,
          getItem_decrementItem_self, getItem_incrementItem_self⟩
  intro s i c out s' h
  obtain ⟨t1, _, _, _, _, _, _, _, _, _, _, _, _, hrest⟩ := finalize_ok_spec h
  exact ⟨hrest.2.1, hrest.2.2.2⟩

/-- Claim C5: Refund rejects an empty selection with InvalidInput, an absent
original with NotFound, a non-finalized original with InvalidState, a
selection containing foreign ids or an already-refunded line with
InvalidInput; a line whose refunded_by is set makes any Refund call
selecting it fail, every failure leaves the store untouched (errors carry
no state), and no operation ever clears a set refunded_by, so a refunded
line can never be refunded again in a later call. -/
theorem claim_C5 (s : Store) (i : Nat) (ids : List Nat) :
    (ids = [] → refund s i ids = .error .invalidInput) ∧
    (ids ≠ [] → findTx s i = none → refund s i ids = .error .notFound) ∧
    (∀ tx, ids ≠ [] → findTx s i = some tx → tx.status ≠ TxStatus.finalized →
       refund s i ids = .error .invalidState) ∧
    (∀ tx, ids ≠ [] → findTx s i = some tx → tx.status = TxStatus.finalized →
       ((txLines s i).filter (fun l => l.id ∈ ids)).length ≠ ids.length →
       refund s i ids = .error .invalidInput) ∧
    (∀ tx, ids ≠ [] → findTx s i = some tx → tx.status = TxStatus.finalized →
       ((txLines s i).filter (fun l => l.id ∈ ids)).length = ids.length →
       ((txLines s i).filter (fun l => l.id ∈ ids)).any
         (fun l => l.refunded_by.isSome) = true →
       refund s i ids = .error .invalidInput) ∧
    (Wf s → ∀ l ∈ s.lines, ∀ r, l.refunded_by = some r → l.id ∈ ids →
       ∃ e, refund s i ids = .error e) ∧
    (Wf s → ∀ out s', refund s i ids = .ok (out, s') →
       ∀ l ∈ s.lines, l.refunded_by.isSome = true →
         ∃ l' ∈ s'.lines, l'.id = l.id ∧ l'.refunded_by = l.refunded_by) ∧
    (∀ bc q out s', addLine s i bc q = .ok (out, s') →
       ∀ l ∈ s.lines, ∃ l' ∈ s'.lines, l'.id = l.id ∧
         l'.refunded_by = l.refunded_by) ∧
    (∀ c out s', finalize s i c = .ok (out, s') → s'.lines = s.lines) ∧
    (openTransaction s).2.lines = s.lines := by
  obtain ⟨e1, e2, e3, e4, e5⟩ := refund_error_conds s i ids
  refine ⟨e1, e2, e3, e4, e5, ?_, ?_, ?_, ?_, rfl⟩
  · intro hWf l hl r hr hin
    exact refund_refunded_line_fails s i ids hWf l hl hin r hr
  · intro hWf out s' h
    exact refund_ok_marks_preserved hWf h
  · intro bc q out s' h l hl
    obtain ⟨item, t0, _, _, _, _, _, _, hlines, _⟩ := addLine_ok_spec h
    exact ⟨l, by rw [hlines]; exact List.mem_append_left _ hl, rfl, rfl⟩
  · intro c out s' h
    obtain ⟨t1, _, _, _, _, _, _, _, _, _, hlines, _⟩ := finalize_ok_spec h
    exact hlines

/-- Claim C6: after a successful Refund the original transaction's status is
`refunded` exactly when every one of its lines now carries refunded_by,
otherwise it stays `finalized`; the returned partial flag is true exactly
when some line of the original is still un-refunded after the call. -/
theorem claim_C6 (s : Store) (i : Nat) (ids : List Nat) (out : RefundOk)
    (s' : Store) (h : refund s i ids = .ok (out, s')) :
    ∃ t', findTx s' i = some t' ∧
      (t'.status = TxStatus.refunded ↔
        ∀ l ∈ txLines s' i, l.refunded_by.isSome = true) ∧
      (t'.status ≠ TxStatus.refunded → t'.status = TxStatus.finalized) ∧
      (out.remainingUnrefunded = true ↔
        ∃ l ∈ txLines s' i, l.refunded_by = none) := by
  obtain ⟨tx, rid, hfx, hst, htxl, hsplit, hrem⟩ := refund_ok_original s i ids out s' h
  have hall : (∀ l ∈ txLines s' i, l.refunded_by.isSome = true) ↔
      ((txLines s i).map (markOf ids rid)).all (fun l => l.refunded_by.isSome)
        = true := by
    rw [htxl, List.all_eq_true]
  have hany : (∃ l ∈ txLines s' i, l.refunded_by = none) ↔
      ((txLines s i).map (markOf ids rid)).any (fun l => l.refunded_by = none)
        = true := by
    rw [htxl, List.any_eq_true]
    constructor
    · rintro ⟨l, hlm, hln⟩
      exact ⟨l, hlm, by simpa using hln⟩
    · rintro ⟨l, hlm, hln⟩
      exact ⟨l, hlm, by simpa using hln⟩
  split at hsplit
  · rename_i hc
    refine ⟨{ tx with status := TxStatus.refunded }, hsplit, ?_, ?_, ?_⟩
    · simp only [hall]
      exact ⟨fun _ => hc, fun _ => trivial⟩
    · intro hcon
      exact absurd rfl hcon
    · rw [hrem, hany]
  · rename_i hc
    refine ⟨tx, hsplit, ?_, fun _ => hst, ?_⟩
    · rw [hst]
      simp only [hall]
      constructor
      · intro hcon
        exact absurd hcon (by decide)
      · intro hcon
        exact absurd hcon hc
    · rw [hrem, hany]

/-- Claim C7: the refund table keeps at most one record per original
transaction: a successful Refund preserves uniqueness of `original_tx`,
reuses the existing record (same id marked into the lines) when one exists,
and creates the single record on the first call. -/
theorem claim_C7 (s : Store) (i : Nat) (ids : List Nat) (out : RefundOk)
    (s' : Store) (hWf : Wf s) (h : refund s i ids = .ok (out, s')) :
    (s'.refunds.map RefundRecord.original_tx).Nodup ∧
    (∀ rec ∈ s.refunds, rec.original_tx = i →
       s'.refunds = s.refunds ∧
       ∀ l ∈ txLines s' i, l.id ∈ ids → l.refunded_by = some rec.id) ∧
    ((∀ rec ∈ s.refunds, rec.original_tx ≠ i) →
       ∃ newRec, s'.refunds = s.refunds ++ [newRec] ∧ newRec.original_tx = i ∧
         ∀ l ∈ txLines s' i, l.id ∈ ids → l.refunded_by = some newRec.id) := by
  obtain ⟨_, _, _, _, _, hrefNodup, _, _, _⟩ := hWf
  obtain ⟨tx, h1, hfx, h2, hlen, hnone, heq⟩ := refund_ok_spec h
  obtain ⟨rid, pid, _, _, _, _, hlines, _, _, hdisj⟩ :=
    refundApply_spec s i ids tx ((txLines s i).filter (fun l => l.id ∈ ids))
  have hs' : s' =
      (refundApply s i ids tx ((txLines s i).filter (fun l => l.id ∈ ids))).2 :=
    congrArg Prod.snd heq
  have hsl : s'.lines = s.lines.map (markOf ids rid) := by rw [hs']; exact hlines
  have hmark : ∀ l ∈ txLines s' i, l.id ∈ ids → l.refunded_by = some rid := by
    intro l hlm hlin
    rw [txLines_of_marked hsl i, List.mem_map] at hlm
    obtain ⟨l0, hl0, hle⟩ := hlm
    by_cases hc : l0.id ∈ ids
    · rw [← hle]
      unfold markOf
      rw [if_pos hc]
    · exfalso
      rw [← hle] at hlin
      unfold markOf at hlin
      rw [if_neg hc] at hlin
      exact hc hlin
  rcases hdisj with ⟨rec0, hrec0, horig0, hrid0, hrefs⟩ | ⟨hnonex, hrid0, hrefs⟩
  · have hrefs' : s'.refunds = s.refunds := by rw [hs']; exact hrefs
    refine ⟨by rw [hrefs']; exact hrefNodup, ?_, ?_⟩
    · intro rec hrec horig
      have : rec = rec0 :=
        List.inj_on_of_nodup_map hrefNodup hrec hrec0 (by rw [horig, horig0])
      subst this
      exact ⟨hrefs', fun l hlm hlin => by rw [hmark l hlm hlin, hrid0]⟩
    · intro hno
      exact absurd horig0 (hno rec0 hrec0)
  · have hrefs' : s'.refunds = s.refunds ++
        [{ id := s.nextId + 1, original_tx := i,
           refund_tx := (refundTxOf s ((txLines s i).filter
             (fun l => l.id ∈ ids))).id }] := by
      rw [hs']
      exact hrefs
    refine ⟨?_, ?_, ?_⟩
    · rw [hrefs', List.map_append]
      rw [List.nodup_append]
      refine ⟨hrefNodup, List.nodup_singleton _, ?_⟩
      intro a ha hb
      simp only [List.map_cons, List.map_nil, List.mem_cons,
        List.not_mem_nil, or_false] at hb
      rw [List.mem_map] at ha
      obtain ⟨rec, hrec, hae⟩ := ha
      exact hnonex rec hrec (by rw [← hb, ← hae])
    · intro rec hrec horig
      exact absurd horig (hnonex rec hrec)
    · intro _
      refine ⟨_, hrefs', rfl, ?_⟩
      intro l hlm hlin
      rw [hmark l hlm hlin, hrid0]

/-- Claim C9: a successful Finalize appends exactly one cash Payment on the
sale transaction with positive amount equal to the cash tendered; a
successful Refund appends exactly one cash Payment on the reversal
transaction whose amount is the negation of the returned refund amount,
hence negative whenever the refund amount is positive. -/
theorem claim_C9 (s : Store) (i : Nat) :
    (∀ c out s', finalize s i c = .ok (out, s') →
       s'.payments = s.payments ++ [out.payment] ∧
       out.payment.transaction_id = i ∧ out.payment.method = "cash" ∧
       out.payment.amount = c ∧ 0 < out.payment.amount) ∧
    (∀ ids out s', refund s i ids = .ok (out, s') →
       ∃ p, s'.payments = s.payments ++ [p] ∧
         p.transaction_id = out.refundTransaction.id ∧ p.method = "cash" ∧
         p.amount = -out.refundAmount ∧
         (0 < out.refundAmount → p.amount < 0)) := by
  constructor
  · intro c out s' h
    obtain ⟨t1, _, hc, _, _, _, _, _, hpay, hpays, _⟩ := finalize_ok_spec h
    refine ⟨hpays, by rw [hpay], by rw [hpay], by rw [hpay], ?_⟩
    rw [hpay]
    exact hc
  · intro ids out s' h
    obtain ⟨tx, h1, hfx, h2, hlen, hnone, heq⟩ := refund_ok_spec h
    obtain ⟨rid, pid, _, hrt, hamt, _, _, _, hpays, _⟩ :=
      refundApply_spec s i ids tx ((txLines s i).filter (fun l => l.id ∈ ids))
    have hs' : s' =
        (refundApply s i ids tx ((txLines s i).filter (fun l => l.id ∈ ids))).2 :=
      congrArg Prod.snd heq
    have hout : out =
        (refundApply s i ids tx ((txLines s i).filter (fun l => l.id ∈ ids))).1 :=
      congrArg Prod.fst heq
    refine ⟨{ id := pid,
              transaction_id := (refundTxOf s ((txLines s i).filter
                (fun l => l.id ∈ ids))).id,
              method := "cash",
              amount := -(round2 (sumStored ((txLines s i).filter
                (fun l => l.id ∈ ids)))) }, ?_, ?_, rfl, ?_, ?_⟩
    · rw [hs']
      exact hpays
    · rw [hout, hrt]
    · rw [hout, hamt]
    · intro hpos
      rw [hout, hamt] at hpos
      exact neg_lt_zero.mpr hpos

/-- Claim C10: every successful Refund call inserts a brand-new reversal
transaction (absent before the call, present after, status `finalized`,
with no lines of its own); when a refund record already existed for the
original transaction, the record list is left untouched, so the
newly-created reversal transaction is referenced by no refund record. -/
theorem claim_C10 (s : Store) (i : Nat) (ids : List Nat) (out : RefundOk)
    (s' : Store) (hWf : Wf s) (h : refund s i ids = .ok (out, s')) :
    out.refundTransaction.status = TxStatus.finalized ∧
    findTx s out.refundTransaction.id = none ∧
    findTx s' out.refundTransaction.id = some out.refundTransaction ∧
    txLines s' out.refundTransaction.id = [] ∧
    (∀ rec ∈ s.refunds, rec.original_tx = i →
       s'.refunds = s.refunds ∧
       ∀ rec' ∈ s'.refunds, rec'.refund_tx ≠ out.refundTransaction.id) := by
  obtain ⟨hlNodup, hlLt, hltx, htNodup, htLt, hrNodup, hrLt, hrtxLt, _⟩ := hWf
  obtain ⟨tx, h1, hfx, h2, hlen, hnone, heq⟩ := refund_ok_spec h
  obtain ⟨rid, pid, _, hrt, _, _, hlines, htrans, _, hdisj⟩ :=
    refundApply_spec s i ids tx ((txLines s i).filter (fun l => l.id ∈ ids))
  have hs' : s' =
      (refundApply s i ids tx ((txLines s i).filter (fun l => l.id ∈ ids))).2 :=
    congrArg Prod.snd heq
  have hout : out =
      (refundApply s i ids tx ((txLines s i).filter (fun l => l.id ∈ ids))).1 :=
    congrArg Prod.fst heq
  have hrtid : out.refundTransaction.id = s.nextId := by rw [hout, hrt]; rfl
  have htxid : tx.id = i := findTx_of_eq s i tx hfx
  have htxlt : i < s.nextId := htxid ▸ htLt tx (findTx_mem s i tx hfx)
  have hsl : s'.lines = s.lines.map (markOf ids rid) := by rw [hs']; exact hlines
  have hstr : s'.transactions =
      (if ((txLines s i).map (markOf ids rid)).all (fun l => l.refunded_by.isSome)
       then ((s.transactions ++
           [refundTxOf s ((txLines s i).filter (fun l => l.id ∈ ids))]).map
             (fun t : PosTransaction =>
               if t.id = i then { t with status := TxStatus.refunded } else t))
       else s.transactions ++
           [refundTxOf s ((txLines s i).filter (fun l => l.id ∈ ids))]) := by
    rw [hs']
    exact htrans
  have hfresh : s.transactions.find? (fun t => t.id = s.nextId) = none := by
    rw [List.find?_eq_none]
    intro t htm
    simp only [decide_eq_true_eq]
    exact Nat.ne_of_lt (htLt t htm)
  have happ : (s.transactions ++
      [refundTxOf s ((txLines s i).filter (fun l => l.id ∈ ids))]).find?
        (fun t => t.id = s.nextId) =
      some (refundTxOf s ((txLines s i).filter (fun l => l.id ∈ ids))) := by
    rw [List.find?_append, hfresh, Option.none_or]
    rw [List.find?_cons_of_pos _ (by simp [refundTxOf])]
  refine ⟨by rw [hout, hrt]; rfl, ?_, ?_, ?_, ?_⟩
  · rw [hrtid]
    exact findTx_fresh s htLt
  · rw [hrtid]
    unfold findTx
    rw [hstr]
    split
    · rw [find?_map_pres _ _ _ (fun t2 => by
        by_cases ht : t2.id = i <;> simp [ht])]
      rw [happ]
      refine congrArg Option.some ?_
      show (if (refundTxOf s ((txLines s i).filter (fun l => l.id ∈ ids))).id = i
          then _ else _) = _
      rw [if_neg (by
        show ¬ s.nextId = i
        exact fun he => absurd (he ▸ htxlt) (lt_irrefl _))]
      rw [hout, hrt]
    · rw [happ]
      refine congrArg Option.some ?_
      rw [hout, hrt]
  · rw [hrtid, txLines_of_marked hsl]
    have : txLines s s.nextId = [] := by
      unfold txLines
      rw [List.filter_eq_nil_iff]
      intro l hl
      simp only [decide_eq_true_eq]
      exact Nat.ne_of_lt (hltx l hl)
    rw [this]
    rfl
  · intro rec hrec horig
    rcases hdisj with ⟨rec0, hrec0, horig0, hrid0, hrefs⟩ | ⟨hnonex, _, _⟩
    · have hrefs' : s'.refunds = s.refunds := by rw [hs']; exact hrefs
      refine ⟨hrefs', ?_⟩
      intro rec' hrec' hcon
      rw [hrefs'] at hrec'
      rw [hrtid] at hcon
      exact absurd hcon (Nat.ne_of_lt (hrtxLt rec' hrec'))
    · exact absurd horig (hnonex rec hrec)

instance {ε α : Type} [DecidableEq ε] [DecidableEq α] : DecidableEq (Except ε α) :=
  fun x y =>
    match x, y with
    | .ok a, .ok b =>
      if h : a = b then isTrue (by rw [h])
      else isFalse (fun hc => h (by injection hc))
    | .error a, .error b =>
      if h : a = b then isTrue (by rw [h])
      else isFalse (fun hc => h (by injection hc))
    | .ok _, .error _ => isFalse (fun hc => Except.noConfusion hc)
    | .error _, .ok _ => isFalse (fun hc => Except.noConfusion hc)

set_option maxRecDepth 2000

/-! Concrete scenarios used by the counterexamples and witnesses. -/

def dummyTx : PosTransaction :=
  { id := 0, status := .opened, subtotal := 0, tax := 0, total := 0 }

def dummyLine : TransactionLine :=
  { id := 0, transaction_id := 0, item_id := 0, quantity := 0, unit_price := 0,
    tax_rate := 0, line_total := 0, refunded_by := none }

def dummyPay : Payment := { id := 0, transaction_id := 0, method := "", amount := 0 }

def dummyRec : RefundRecord := { id := 0, original_tx := 0, refund_tx := 0 }

/-- Scenario W: one item at price 2.99, tax rate 0.0875 (the spec's own
worked example); open, add one line, finalize with 5 in cash, refund the
single line. -/
def wStore : Store :=
  { items := [{ id := 0, price := 2.99, tax_rate := 0.0875, quantity := 5,
                is_active := true }],
    barcodes := [("B1", 0)], transactions := [], lines := [], payments := [],
    refunds := [], nextId := 1 }

def wS1 : Store := (openTransaction wStore).2

def wA2out : AddLineOk :=
  match addLine wS1 1 "B1" 1 with
  | .ok p => p.1
  | .error _ => { line := dummyLine, transaction := dummyTx }

def wS2 : Store :=
  match addLine wS1 1 "B1" 1 with
  | .ok p => p.2
  | .error _ => wS1

def wF3out : FinalizeOk :=
  match finalize wS2 1 5 with
  | .ok p => p.1
  | .error _ => { transaction := dummyTx, payment := dummyPay, change := 0,
                  changeRounded := 0 }

def wS3 : Store :=
  match finalize wS2 1 5 with
  | .ok p => p.2
  | .error _ => wS2

def wR4out : RefundOk :=
  match refund wS3 1 [2] with
  | .ok p => p.1
  | .error _ => { refundAmount := 0, originalTransaction := dummyTx,
                  refundTransaction := dummyTx, remainingUnrefunded := false }

def wS4 : Store :=
  match refund wS3 1 [2] with
  | .ok p => p.2
  | .error _ => wS3

/-- Scenario B: a store holding an already-finalized transaction, used to
exhibit that AddLine accepts a line on a non-open transaction. -/
def bStore : Store :=
  { items := [{ id := 0, price := 1, tax_rate := 0, quantity := 5, is_active := true }],
    barcodes := [("B1", 0)],
    transactions := [{ id := 1, status := .finalized, subtotal := 0, tax := 0,
                       total := 0 }],
    lines := [], payments := [], refunds := [], nextId := 2 }

def bOut : AddLineOk :=
  match addLine bStore 1 "B1" 1 with
  | .ok p => p.1
  | .error _ => { line := dummyLine, transaction := dummyTx }

def bS2 : Store :=
  match addLine bStore 1 "B1" 1 with
  | .ok p => p.2
  | .error _ => bStore

/-- Scenario M: an open transaction with one line referencing a missing item
(id 99) and one line selling 2 units of the existing item 0. -/
def mLine3 : TransactionLine :=
  { id := 3, transaction_id := 1, item_id := 0, quantity := 2, unit_price := 1,
    tax_rate := 0, line_total := 2, refunded_by := none }

def mStore : Store :=
  { items := [{ id := 0, price := 1, tax_rate := 0, quantity := 5, is_active := true }],
    barcodes := [],
    transactions := [{ id := 1, status := .opened, subtotal := 2, tax := 0,
                       total := 2 }],
    lines := [{ id := 2, transaction_id := 1, item_id := 99, quantity := 3,
                unit_price := 1, tax_rate := 0, line_total := 1, refunded_by := none },
              mLine3],
    payments := [], refunds := [], nextId := 4 }

def mF4out : FinalizeOk :=
  match finalize mStore 1 5 with
  | .ok p => p.1
  | .error _ => { transaction := dummyTx, payment := dummyPay, change := 0,
                  changeRounded := 0 }

def mS2 : Store :=
  match finalize mStore 1 5 with
  | .ok p => p.2
  | .error _ => mStore

/-- Scenario H: a handcrafted mid-refund state: transaction 1 is finalized
with two lines, line 2 already refunded by record 7 (whose reversal is
transaction 6), line 3 still open. -/
def hStore : Store :=
  { items := [{ id := 0, price := 1, tax_rate := 0, quantity := 5, is_active := true },
              { id := 1, price := 2, tax_rate := 0, quantity := 5, is_active := true }],
    barcodes := [("A", 0), ("B", 1)],
    transactions := [{ id := 1, status := .finalized, subtotal := 3, tax := 0, total := 3 },
                     { id := 6, status := .finalized, subtotal := 1, tax := 0, total := 1 }],
    lines := [{ id := 2, transaction_id := 1, item_id := 0, quantity := 1,
                unit_price := 1, tax_rate := 0, line_total := 1, refunded_by := some 7 },
              { id := 3, transaction_id := 1, item_id := 1, quantity := 1,
                unit_price := 2, tax_rate := 0, line_total := 2, refunded_by := none }],
    payments := [],
    refunds := [{ id := 7, original_tx := 1, refund_tx := 6 }],
    nextId := 8 }

def hRout : RefundOk :=
  match refund hStore 1 [3] with
  | .ok p => p.1
  | .error _ => { refundAmount := 0, originalTransaction := dummyTx,
                  refundTransaction := dummyTx, remainingUnrefunded := false }

def hS2 : Store :=
  match refund hStore 1 [3] with
  | .ok p => p.2
  | .error _ => hStore

/-- Scenario C: price 1.006 with tax rate 1, whose refund rounds subtotal
and tax up but the total down, breaking additivity on the reversal row. -/
def cStore : Store :=
  { items := [{ id := 0, price := 1.006, tax_rate := 1, quantity := 5,
                is_active := true }],
    barcodes := [("B1", 0)], transactions := [], lines := [], payments := [],
    refunds := [], nextId := 1 }

def cS1 : Store := (openTransaction cStore).2

def cS2 : Store :=
  match addLine cS1 1 "B1" 1 with
  | .ok p => p.2
  | .error _ => cS1

def cS3 : Store :=
  match finalize cS2 1 10 with
  | .ok p => p.2
  | .error _ => cS2

def cR4out : RefundOk :=
  match refund cS3 1 [2] with
  | .ok p => p.1
  | .error _ => { refundAmount := 0, originalTransaction := dummyTx,
                  refundTransaction := dummyTx, remainingUnrefunded := false }

def cS4 : Store :=
  match refund cS3 1 [2] with
  | .ok p => p.2
  | .error _ => cS3

/-- Claim C2 (code bug in the source): the lines handler performs no status
check on the transaction, so adding a line to a `finalized` transaction
succeeds and inserts the line instead of failing InvalidState; the spec
mandates rejection. -/
theorem claim_C2 :
    findTx bStore 1 = some { id := 1, status := TxStatus.finalized,
                             subtotal := 0, tax := 0, total := 0 } ∧
    addLine bStore 1 "B1" 1 = .ok (bOut, bS2) ∧
    isOkB (addLine bStore 1 "B1" 1) = true ∧
    txLines bS2 1 = [bOut.line] := by
  refine ⟨by with_unfolding_all rfl, by with_unfolding_all rfl,
          by with_unfolding_all rfl, by with_unfolding_all rfl⟩

/-- Claim C1 counterexample: in scenario C the refund's reversal transaction
is persisted with subtotal 1.01, tax 1.01 and total 2.01, so its total is
not subtotal plus tax, and it has no lines, so its subtotal is not the sum
over its own line set. -/
theorem claim_C1_counterexample :
    refund cS3 1 [2] = .ok (cR4out, cS4) ∧
    findTx cS4 cR4out.refundTransaction.id = some cR4out.refundTransaction ∧
    txLines cS4 cR4out.refundTransaction.id = [] ∧
    cR4out.refundTransaction.total ≠
      cR4out.refundTransaction.subtotal + cR4out.refundTransaction.tax ∧
    cR4out.refundTransaction.subtotal ≠
      sumSub (txLines cS4 cR4out.refundTransaction.id) := by
  refine ⟨by with_unfolding_all rfl, by with_unfolding_all rfl,
          by with_unfolding_all rfl, ?_, ?_⟩
  · have h1 : cR4out.refundTransaction.total = (201 : ℚ)/100 := by
      with_unfolding_all rfl
    have h2 : cR4out.refundTransaction.subtotal = (101 : ℚ)/100 := by
      with_unfolding_all rfl
    have h3 : cR4out.refundTransaction.tax = (101 : ℚ)/100 := by
      with_unfolding_all rfl
    rw [h1, h2, h3]
    norm_num
  · have h2 : cR4out.refundTransaction.subtotal = (101 : ℚ)/100 := by
      with_unfolding_all rfl
    have h4 : txLines cS4 cR4out.refundTransaction.id = [] := by
      with_unfolding_all rfl
    rw [h2, h4]
    show (101 : ℚ)/100 ≠ 0
    norm_num

/-- Claim C8 counterexample: with unit price 2.99, tax rate 0.0875 and
quantity 1 the persisted line_total is the full-precision 3.251625, not the
2-decimal 3.25 the claim asserts, and the transaction's persisted tax and
total are likewise unrounded. -/
theorem claim_C8_counterexample :
    addLine wS1 1 "B1" 1 = .ok (wA2out, wS2) ∧
    wA2out.line.line_total = (26013 : ℚ)/8000 ∧
    round2 ((26013 : ℚ)/8000) = (13 : ℚ)/4 ∧
    wA2out.line.line_total ≠ (13 : ℚ)/4 ∧
    wS2.lines.map (fun l => l.line_total) = [(26013 : ℚ)/8000] ∧
    wA2out.transaction.tax ≠ round2 wA2out.transaction.tax := by
  refine ⟨by with_unfolding_all rfl, by with_unfolding_all rfl,
          by with_unfolding_all decide, ?_, by with_unfolding_all rfl, ?_⟩
  · have h : wA2out.line.line_total = (26013 : ℚ)/8000 := by
      with_unfolding_all rfl
    rw [h]
    norm_num
  · have h : wA2out.transaction.tax = (2093 : ℚ)/8000 := by
      with_unfolding_all rfl
    have h2 : round2 ((2093 : ℚ)/8000) = (13 : ℚ)/50 := by
      with_unfolding_all decide
    rw [h, h2]
    norm_num

/-- Claim C8 (amended): rounding to two decimals happens at persistence only
in the refund path (the reversal transaction's monetary fields and the
refund payment amount) and at the display of change; AddLine persists the
line_total and the transaction totals at full precision, as the 2.99 /
0.0875 / qty-1 example shows. -/
theorem claim_C8 :
    (addLine wS1 1 "B1" 1 = .ok (wA2out, wS2) ∧
     wA2out.line.line_total = (26013 : ℚ)/8000 ∧
     wA2out.transaction.subtotal = (299 : ℚ)/100 ∧
     wA2out.transaction.tax = (2093 : ℚ)/8000 ∧
     wA2out.transaction.total = (26013 : ℚ)/8000 ∧
     round2 ((26013 : ℚ)/8000) = (13 : ℚ)/4) ∧
    (∀ s i ids out s', refund s i ids = .ok (out, s') →
       out.refundTransaction =
         refundTxOf s ((txLines s i).filter (fun l => l.id ∈ ids)) ∧
       out.refundAmount =
         round2 (sumStored ((txLines s i).filter (fun l => l.id ∈ ids))) ∧
       ∃ p, s'.payments = s.payments ++ [p] ∧ p.amount = -(out.refundAmount)) ∧
    (∀ s i c out s', finalize s i c = .ok (out, s') →
       out.changeRounded = round2 out.change) := by
  refine ⟨⟨by with_unfolding_all rfl, by with_unfolding_all rfl,
           by with_unfolding_all rfl, by with_unfolding_all rfl,
           by with_unfolding_all rfl, by with_unfolding_all decide⟩, ?_, ?_⟩
  · intro s i ids out s' h
    obtain ⟨tx, h1, hfx, h2, hlen, hnone, heq⟩ := refund_ok_spec h
    obtain ⟨rid, pid, _, hrt, hamt, _, _, _, hpays, _⟩ :=
      refundApply_spec s i ids tx ((txLines s i).filter (fun l => l.id ∈ ids))
    have hs' : s' =
        (refundApply s i ids tx ((txLines s i).filter (fun l => l.id ∈ ids))).2 :=
      congrArg Prod.snd heq
    have hout : out =
        (refundApply s i ids tx ((txLines s i).filter (fun l => l.id ∈ ids))).1 :=
      congrArg Prod.fst heq
    refine ⟨by rw [hout]; exact hrt, by rw [hout]; exact hamt, ?_⟩
    refine ⟨{ id := pid,
              transaction_id := (refundTxOf s ((txLines s i).filter
                (fun l => l.id ∈ ids))).id,
              method := "cash",
              amount := -(round2 (sumStored ((txLines s i).filter
                (fun l => l.id ∈ ids)))) }, ?_, ?_⟩
    · rw [hs']
      exact hpays
    · rw [hout, hamt]
  · intro s i c out s' h
    obtain ⟨t1, _, _, _, _, _, hch, hchr, _⟩ := finalize_ok_spec h
    rw [hchr, hch]

/-- Witness for claim C1 at the concrete scenarios. -/
theorem claim_C1_witness :
    txInvariant wS2 wA2out.transaction ∧
    txInvariant wS1 (openTransaction wStore).1 ∧
    cR4out.refundTransaction.subtotal =
      round2 (sumSub ((txLines cS3 1).filter (fun l => l.id ∈ [2]))) :=
  ⟨(claim_C1 wS1 1).2.1 "B1" 1 wA2out wS2 (by with_unfolding_all rfl),
   (claim_C1 wStore 1).1 (by decide),
   ((claim_C1 cS3 1).2.2.2 [2] cR4out cS4 (by with_unfolding_all rfl)).1⟩

/-- Witness for claim C3: finalizing the 2.99-item sale with 5 in cash
succeeds with the exact change. -/
theorem claim_C3_witness :
    ∃ out s', finalize wS2 1 5 = .ok (out, s') ∧
      out.change = 5 - wA2out.transaction.total ∧
      out.changeRounded = round2 (5 - wA2out.transaction.total) ∧
      ((5 : ℚ) = wA2out.transaction.total → out.change = 0) :=
  (claim_C3 wS2 1 5).2.2.2.2 wA2out.transaction
    (by with_unfolding_all rfl) (by with_unfolding_all rfl) (by norm_num)
    (by rw [show wA2out.transaction.total = (26013 : ℚ)/8000 from
          by with_unfolding_all rfl]
        norm_num)

/-- Witness for claim C4: in scenario M the existing item is decremented by
its line quantity even though another line references a missing item. -/
theorem claim_C4_witness :
    getItem mS2 0 = (getItem mStore 0).map (fun it : Item =>
      { it with quantity := max 0 (it.quantity - mLine3.quantity) }) :=
  ((claim_C4.1 mStore 1 5 mF4out mS2 (by with_unfolding_all rfl)).1) 0 mLine3
    (by with_unfolding_all decide)

/-- Witness for claim C5: in scenario H, selecting the already-refunded line
2 again fails, and an empty selection is rejected. -/
theorem claim_C5_witness :
    (∃ e, refund hStore 1 [2] = .error e) ∧
    refund hStore 1 ([] : List Nat) = .error .invalidInput :=
  ⟨(claim_C5 hStore 1 [2]).2.2.2.2.2.1 (by decide)
      { id := 2, transaction_id := 1, item_id := 0, quantity := 1,
        unit_price := 1, tax_rate := 0, line_total := 1, refunded_by := some 7 }
      (by with_unfolding_all decide) 7 rfl (by decide),
   (claim_C5 hStore 1 []).1 rfl⟩

/-- Witness for claim C6 at the completing refund of scenario H. -/
theorem claim_C6_witness :
    ∃ t', findTx hS2 1 = some t' ∧
      (t'.status = TxStatus.refunded ↔
        ∀ l ∈ txLines hS2 1, l.refunded_by.isSome = true) ∧
      (t'.status ≠ TxStatus.refunded → t'.status = TxStatus.finalized) ∧
      (hRout.remainingUnrefunded = true ↔
        ∃ l ∈ txLines hS2 1, l.refunded_by = none) :=
  claim_C6 hStore 1 [3] hRout hS2 (by with_unfolding_all rfl)

/-- Witness for claim C7 at the second refund call of scenario H: the refund
record list is unchanged and the newly marked line carries the record id of
the first call. -/
theorem claim_C7_witness :
    (hS2.refunds.map RefundRecord.original_tx).Nodup ∧
    hS2.refunds = hStore.refunds ∧
    (∀ l ∈ txLines hS2 1, l.id ∈ [3] →
      l.refunded_by = some (7 : Nat)) := by
  have h := claim_C7 hStore 1 [3] hRout hS2 (by decide)
    (by with_unfolding_all rfl)
  have h2 := h.2.1 { id := 7, original_tx := 1, refund_tx := 6 } (by decide) rfl
  exact ⟨h.1, h2.1, h2.2⟩

/-- Witness for claim C9 at scenario W: the sale payment of 5 and the refund
payment of minus the refund amount. -/
theorem claim_C9_witness :
    (wS3.payments = wS2.payments ++ [wF3out.payment] ∧ wF3out.payment.amount = 5) ∧
    (∃ p, wS4.payments = wS3.payments ++ [p] ∧ p.amount = -wR4out.refundAmount) := by
  have h1 := (claim_C9 wS2 1).1 5 wF3out wS3 (by with_unfolding_all rfl)
  have h2 := (claim_C9 wS3 1).2 [2] wR4out wS4 (by with_unfolding_all rfl)
  obtain ⟨p, hp1, _, _, hp4, _⟩ := h2
  exact ⟨⟨h1.1, h1.2.2.2.1⟩, ⟨p, hp1, hp4⟩⟩

/-- Witness for claim C10 at the second refund call of scenario H: the new
reversal transaction is fresh, line-less, and referenced by no record. -/
theorem claim_C10_witness :
    hRout.refundTransaction.status = TxStatus.finalized ∧
    findTx hStore hRout.refundTransaction.id = none ∧
    txLines hS2 hRout.refundTransaction.id = [] ∧
    hS2.refunds = hStore.refunds := by
  have h := claim_C10 hStore 1 [3] hRout hS2 (by decide)
    (by with_unfolding_all rfl)
  have h2 := h.2.2.2.2 { id := 7, original_tx := 1, refund_tx := 6 } (by decide) rfl
  exact ⟨h.1, h.2.1, h.2.2.2.1, h2.1⟩

/-- Witness for claim C8 at scenario W: the displayed change is the rounded
change and the refund payment negates the refund amount. -/
theorem claim_C8_witness :
    wF3out.changeRounded = round2 wF3out.change ∧
    (∃ p, wS4.payments = wS3.payments ++ [p] ∧ p.amount = -(wR4out.refundAmount)) := by
  have h3 := claim_C8.2.2 wS2 1 5 wF3out wS3 (by with_unfolding_all rfl)
  have h2 := claim_C8.2.1 wS3 1 [2] wR4out wS4 (by with_unfolding_all rfl)
  exact ⟨h3, h2.2.2⟩

end POS
